import Mathlib

/-!
# Directory modification handling of the shell browser

A shallow embedding of `Explorer++/ShellBrowser/DirectoryModificationHandler.cpp`:
the handlers `OnShellNotify`, `AddItem`, `RemoveItem`, `ModifyItem` and `RenameItem` of
`CShellBrowser` become pure functions on an explicit browser state.

Conventions of the embedding.

* The member variables the handlers read or write are the fields of `CShellBrowser`.  The
  three parallel arrays `m_pItemMap`, `m_pwfdFiles` and `m_pExtraItemInfo`, which share one
  allocation length, are kept as one array `items` of triples; `m_pItemMap[i]` is the field
  `m_pItemMap` of entry `i`, and so on.
* Internal indices and row indices are `Int`; `-1` is the "not found" value of the source.
* A `PIDL` is the list of its item identifiers.  `TCHAR` strings are `String`; every name
  handled is taken to fit the `MAX_PATH` buffers of the source, so `StringCchCopy` is plain
  assignment.
* A `ULARGE_INTEGER` is a natural number below `2 ^ 64`; `+=` and `-=` on `QuadPart` wrap.
* The list view control `m_hListView` is the list of its rows, in display order.  Messages
  sent to the owner window are appended to `m_hOwner`.  Deleting a row is a synchronous
  message to the control, which notifies the owner before the row is gone; the handler of
  the owner is not among the files at hand and is modelled from the specification.
* What the shell and the file system answer is read from a `Shell` record passed to each
  handler, so that two successive calls may see different answers.
* Releasing memory (`CoTaskMemFree`, `Release`, `DestroyIcon`, `FindClose`) and taking the
  notification lock have no effect on the modelled state.
-/

namespace ShellBrowser

/-! ## Shell constants -/

def SHCNE_RENAMEITEM : Nat := 0x00000001
def SHCNE_DELETE : Nat := 0x00000004
def SHCNE_RMDIR : Nat := 0x00000010
def SHCNE_RENAMEFOLDER : Nat := 0x00020000

def SHGDN_INFOLDER : Nat := 0x0001
def SHGDN_FORPARSING : Nat := 0x8000

def FILE_ATTRIBUTE_HIDDEN : Nat := 0x00000002
def FILE_ATTRIBUTE_DIRECTORY : Nat := 0x00000010

/-! ## Data -/

/-- An item identifier list: the identifiers of the path from the desktop to the object. -/
abbrev Pidl := List Nat

/-- The file record `WIN32_FIND_DATA`. -/
structure WIN32_FIND_DATA where
  dwFileAttributes : Nat
  ftCreationTime : Nat
  ftLastAccessTime : Nat
  ftLastWriteTime : Nat
  nFileSizeHigh : Nat
  nFileSizeLow : Nat
  cFileName : String
  cAlternateFileName : String
  deriving DecidableEq, Repr

/-- The extended item information: relative identifier and cached display name. -/
structure CItemObject where
  pridl : Pidl
  szDisplayName : String
  deriving DecidableEq, Repr

/-- One entry of the slot table: `m_pItemMap[i]`, `m_pwfdFiles[i]`, `m_pExtraItemInfo[i]`. -/
structure ItemSlot where
  m_pItemMap : Nat
  m_pwfdFiles : WIN32_FIND_DATA
  m_pExtraItemInfo : CItemObject
  deriving DecidableEq, Repr

/-- A row of the list view: its `lParam` (the internal index it is bound to), the state
bits `LVIS_SELECTED` and `LVIS_CUT`, the overlay bits, image, text and sub-item texts. -/
structure LVITEM where
  lParam : Int
  selected : Bool
  cut : Bool
  overlay : Nat
  iImage : Nat
  pszText : String
  subItems : List String
  deriving DecidableEq, Repr

/-- An entry of `m_FilesAdded`: the name of a file that could not be added. -/
structure Added_t where
  szFileName : String
  deriving DecidableEq, Repr

/-- An entry of `m_AwaitingAddList`: an item that has a slot and awaits insertion. -/
structure AwaitingAdd_t where
  iItemInternal : Int
  deriving DecidableEq, Repr

/-- An entry of `m_DroppedFileNameList`. -/
structure DroppedFile_t where
  szFileName : String
  deriving DecidableEq, Repr

/-- An entry of the active column list. -/
structure Column_t where
  id : Nat
  bChecked : Bool
  deriving DecidableEq, Repr

/-- The view modes; this code only tells `VM_DETAILS` from the others. -/
inductive ViewMode where
  | VM_DETAILS
  | VM_OTHER
  deriving DecidableEq, Repr

/-- A message received by the owner window: `WM_USER_FOLDEREMPTY` with its two parameters. -/
structure OwnerMessage where
  wParam : Nat
  lParam : Bool
  deriving DecidableEq, Repr

/-- The state of a `CShellBrowser` as far as the directory modification handlers see it. -/
structure CShellBrowser where
  m_ID : Nat
  m_pidlDirectory : Pidl
  m_CurDir : String
  m_bVirtualFolder : Bool
  m_bInsertSorted : Bool
  m_bApplyFilter : Bool
  m_bShowInGroups : Bool
  m_ViewMode : ViewMode
  m_pActiveColumnList : Option (List Column_t)
  m_DroppedFileNameList : List DroppedFile_t
  m_FilesAdded : List Added_t
  m_AwaitingAddList : List AwaitingAdd_t
  items : List ItemSlot
  m_ulTotalDirSize : Nat
  m_ulFileSelectionSize : Nat
  m_nTotalItems : Int
  m_hListView : List LVITEM
  m_hOwner : List OwnerMessage
  deriving DecidableEq, Repr

/-- The answers of the shell namespace, the file system and the display collaborators. -/
structure Shell where
  /-- Parsing a full file name into an absolute identifier; `none` is a failed `HRESULT`. -/
  GetIdlFromParsingName : String → Option Pidl
  /-- Whether `SHBindToParent` succeeds on an absolute identifier. -/
  SHBindToParent : Pidl → Bool
  /-- The display name of the object under the given `SHGDN` flags. -/
  GetDisplayNameOf : Pidl → Nat → Option String
  /-- The record found by `FindFirstFile`; `none` is `INVALID_HANDLE_VALUE`. -/
  FindFirstFile : String → Option WIN32_FIND_DATA
  /-- The `iIcon` value of `SHGetFileInfo` on a path; `none` is the result `0`. -/
  SHGetFileInfo : String → Option Nat
  /-- The `iIcon` value of `SHGetFileInfo` with `SHGFI_PIDL`; `none` is the result `0`. -/
  SHGetFileInfo_PIDL : Pidl → Option Nat
  /-- The directory-enumeration record of the object an identifier names. -/
  directoryRecord : Pidl → WIN32_FIND_DATA
  /-- Whether the active sort order puts the first item strictly after the second. -/
  sortsAfter : ItemSlot → ItemSlot → Bool
  /-- Whether the filter pattern excludes a file name. -/
  filterExcludes : String → Bool
  /-- The text of a column for an item. -/
  columnText : Nat → ItemSlot → String

instance : Inhabited WIN32_FIND_DATA := ⟨⟨0, 0, 0, 0, 0, 0, "", ""⟩⟩

instance : Inhabited CItemObject := ⟨⟨[], ""⟩⟩

instance : Inhabited ItemSlot := ⟨⟨0, default, default⟩⟩

/-! ## 64-bit sizes -/

/-- The value `QuadPart` of a `ULARGE_INTEGER` whose `LowPart` and `HighPart` (two `DWORD`s)
were assigned the given values. -/
def QuadPart (LowPart HighPart : Nat) : Nat :=
  (HighPart % 2 ^ 32) * 2 ^ 32 + LowPart % 2 ^ 32

/-- The size stored in a file record, as the source reads it into `ulFileSize`. -/
def ulFileSize (wfd : WIN32_FIND_DATA) : Nat :=
  QuadPart wfd.nFileSizeLow wfd.nFileSizeHigh

/-- The operation `a.QuadPart -= b.QuadPart` on 64-bit unsigned values. -/
def sub64 (a b : Nat) : Nat :=
  (a + (2 ^ 64 - b % 2 ^ 64)) % 2 ^ 64

/-- The operation `a.QuadPart += b.QuadPart` on 64-bit unsigned values. -/
def add64 (a b : Nat) : Nat :=
  (a + b) % 2 ^ 64

/-! ## Identifier lists and paths -/

/-- The shell function `ILIsParent`: with `fImmediate` the second list must be the first
followed by exactly one identifier, without it the first must be an initial part. -/
def ILIsParent (pidl1 pidl2 : Pidl) (fImmediate : Bool) : Bool :=
  if fImmediate then pidl2 != [] && pidl2.dropLast == pidl1
  else pidl1.isPrefixOf pidl2

/-- The shell function `ILFindLastID`: the relative identifier `SHBindToParent` hands out. -/
def ILFindLastID (pidl : Pidl) : Pidl :=
  pidl.drop (pidl.length - 1)

/-- The shell function `PathAppend` on a directory and a file name. -/
def PathAppend (dir file : String) : String :=
  dir ++ "\\" ++ file

/-- The overlay state bits of an overlay index, `INDEXTOOVERLAYMASK`. -/
def INDEXTOOVERLAYMASK (i : Nat) : Nat :=
  i <<< 8

/-- The state mask `LVIS_OVERLAYMASK`: the bits of a row state that hold the overlay. -/
def LVIS_OVERLAYMASK : Nat := 0x0F00

/-- The overlay bits a row keeps when `LVM_SETITEM` is sent with the state mask
`LVIS_OVERLAYMASK` and the given state: only the bits under the mask are taken. -/
def overlayState (state : Nat) : Nat :=
  state &&& LVIS_OVERLAYMASK

/-! ## The slot table -/

/-- Reading entry `i` of the slot table. -/
def slotAt (items : List ItemSlot) (i : Int) : ItemSlot :=
  if i < 0 then default else items.getD i.toNat default

/-- Writing entry `i` of the slot table. -/
def setSlot (items : List ItemSlot) (i : Int) (f : ItemSlot → ItemSlot) : List ItemSlot :=
  if i < 0 then items
  else match items[i.toNat]? with
    | some it => items.set i.toNat (f it)
    | none => items

/-- A slot is live when the item map marks it as in use. -/
def isLive (s : CShellBrowser) (i : Int) : Bool :=
  (slotAt s.items i).m_pItemMap == 1

/-- The sum of the stored sizes of the live slots. -/
def liveSizeSum (items : List ItemSlot) : Nat :=
  (items.map (fun it => if it.m_pItemMap == 1 then ulFileSize it.m_pwfdFiles else 0)).sum

/-! ## The list view control -/

/-- The message `LVM_GETITEMCOUNT`. -/
def ListView_GetItemCount (lv : List LVITEM) : Int :=
  lv.length

/-- The message `LVM_FINDITEM` with `LVFI_PARAM`, searching from the start. -/
def ListView_FindItem (lv : List LVITEM) (lParam : Int) : Int :=
  if lv.findIdx (fun r => r.lParam == lParam) < lv.length then
    lv.findIdx (fun r => r.lParam == lParam)
  else -1

/-- The message `LVM_GETITEM`; `none` is the result `FALSE`. -/
def ListView_GetItem (lv : List LVITEM) (iItem : Int) : Option LVITEM :=
  if iItem < 0 then none else lv[iItem.toNat]?

/-- The rows of the control once `LVM_DELETEITEM` has erased the row `iItem`. -/
def LVM_DELETEITEM (lv : List LVITEM) (iItem : Int) : List LVITEM :=
  if iItem < 0 then lv else lv.eraseIdx iItem.toNat

/-- The test `ListView_GetItemState(.., iItem, LVIS_SELECTED) == LVIS_SELECTED`; for an
index that is no row the message returns `0`. -/
def ListView_IsSelected (lv : List LVITEM) (iItem : Int) : Bool :=
  match ListView_GetItem lv iItem with
  | some r => r.selected
  | none => false

/-- The message `LVM_SETITEM` (or `LVM_SETITEMTEXT`) on one row. -/
def ListView_SetItem (lv : List LVITEM) (iItem : Int) (f : LVITEM → LVITEM) : List LVITEM :=
  if iItem < 0 then lv
  else match lv[iItem.toNat]? with
    | some r => lv.set iItem.toNat (f r)
    | none => lv

/-- The message `LVM_SETITEMSTATE`: the index `-1` applies the change to every row. -/
def ListView_SetItemState (lv : List LVITEM) (iItem : Int) (f : LVITEM → LVITEM) :
    List LVITEM :=
  if iItem == -1 then lv.map f else ListView_SetItem lv iItem f

/-- The message `LVM_INSERTITEM`; a position past the end appends. -/
def ListView_InsertItem (lv : List LVITEM) (iItem : Nat) (r : LVITEM) : List LVITEM :=
  lv.take iItem ++ r :: lv.drop iItem

/-! ## Lookups of the item store -/

/-- Modelled from the spec: `LocateFileItemInternalIndex(pidl)` is declared outside the
files at hand.  It is the lookup `locateByParsedIdentifier` of the item store: the first
live slot whose stored relative identifier, taken in the monitored directory, is the
supplied identifier; `-1` on a miss. -/
def LocateFileItemInternalIndex (s : CShellBrowser) (pidl : Pidl) : Int :=
  if s.items.findIdx (fun it => it.m_pItemMap == 1 &&
      s.m_pidlDirectory ++ it.m_pExtraItemInfo.pridl == pidl) < s.items.length then
    s.items.findIdx (fun it => it.m_pItemMap == 1 &&
      s.m_pidlDirectory ++ it.m_pExtraItemInfo.pridl == pidl)
  else -1

/-- Modelled from the spec: `LocateFileItemIndex(FileName)` is declared outside the files
at hand.  It is the list-view-bound lookup by name: the index of the first row whose bound
item carries the name in its file record; `-1` on a miss. -/
def LocateFileItemIndex (s : CShellBrowser) (FileName : String) : Int :=
  if s.m_hListView.findIdx
      (fun r => (slotAt s.items r.lParam).m_pwfdFiles.cFileName == FileName)
      < s.m_hListView.length then
    s.m_hListView.findIdx
      (fun r => (slotAt s.items r.lParam).m_pwfdFiles.cFileName == FileName)
  else -1

/-- The loop of `ModifyItem` over `m_AwaitingAddList`: the internal index of the first
entry whose file record carries the name, `-1` when there is none. -/
def AwaitingAdd_find (items : List ItemSlot) (FileName : String) : List AwaitingAdd_t → Int
  | [] => -1
  | a :: rest =>
    if (slotAt items a.iItemInternal).m_pwfdFiles.cFileName == FileName then a.iItemInternal
    else AwaitingAdd_find items FileName rest

/-! ## Deleting a row -/

/-- Modelled from the spec: the handler of the owner for the notifications the list view
sends while a row is deleted is outside the files at hand.  It is `applyDelta` of the
aggregate tracker for a row that leaves the view: when the row is marked selected, the
stored size of the item it is bound to is taken off `m_ulFileSelectionSize`. -/
def OnListViewItemDeleted (s : CShellBrowser) (iItem : Int) : CShellBrowser :=
  match ListView_GetItem s.m_hListView iItem with
  | some r =>
    if r.selected then
      { s with m_ulFileSelectionSize :=
          sub64 s.m_ulFileSelectionSize (ulFileSize (slotAt s.items r.lParam).m_pwfdFiles) }
    else s
  | none => s

/-- The call `ListView_DeleteItem(m_hListView, iItem)`: a synchronous `LVM_DELETEITEM`.  The
owner is notified while the row is still in the control, then the row is erased. -/
def ListView_DeleteItem (s : CShellBrowser) (iItem : Int) : CShellBrowser :=
  { OnListViewItemDeleted s iItem with m_hListView := LVM_DELETEITEM s.m_hListView iItem }

/-! ## RemoveItem -/

/-- The method `CShellBrowser::RemoveItem(int iItemInternal)`.  The state `s1` is the one
after the call of `ListView_DeleteItem`, which touches the rows and, through the owner,
`m_ulFileSelectionSize`. -/
def RemoveItem_int (s : CShellBrowser) (iItemInternal : Int) : CShellBrowser :=
  if iItemInternal == -1 then s
  else
    let ulFileSize := ulFileSize (slotAt s.items iItemInternal).m_pwfdFiles
    let iItem := ListView_FindItem s.m_hListView iItemInternal
    let s1 := if iItem != -1 then ListView_DeleteItem s iItem else s
    let nItems := ListView_GetItemCount s1.m_hListView
    let items := setSlot s.items iItemInternal (fun it => { it with m_pItemMap := 0 })
    let sent :=
      if nItems == 0 && !s.m_bApplyFilter then s.m_hOwner ++ [⟨s.m_ID, true⟩]
      else s.m_hOwner
    { s with
      m_ulTotalDirSize := sub64 s.m_ulTotalDirSize ulFileSize
      m_ulFileSelectionSize := s1.m_ulFileSelectionSize
      m_hListView := s1.m_hListView
      items := items
      m_nTotalItems := s.m_nTotalItems - 1
      m_hOwner := sent }

/-- The method `CShellBrowser::RemoveItem(PCIDLIST_ABSOLUTE pidl)`. -/
def RemoveItem (s : CShellBrowser) (pidl : Pidl) : CShellBrowser :=
  if LocateFileItemInternalIndex s pidl != -1 then
    RemoveItem_int s (LocateFileItemInternalIndex s pidl)
  else s

/-! ## ModifyItem -/

/-- Modelled from the spec: `SetColumnText(id, iItem, iColumnIndex)` is declared outside
the files at hand.  It refreshes the cached display text of one column of a row. -/
def SetColumnText (sh : Shell) (items : List ItemSlot) (lv : List LVITEM) (id : Nat)
    (iItem : Int) (iColumnIndex : Nat) : List LVITEM :=
  ListView_SetItem lv iItem (fun r =>
    { r with subItems := r.subItems.set iColumnIndex (sh.columnText id (slotAt items r.lParam)) })

/-- The loop of `ModifyItem` over the active columns, `iColumnIndex` counting the checked
ones. -/
def refreshColumns (sh : Shell) (items : List ItemSlot) (iItem : Int) :
    List Column_t → Nat → List LVITEM → List LVITEM
  | [], _, lv => lv
  | c :: rest, iColumnIndex, lv =>
    if c.bChecked then
      refreshColumns sh items iItem rest (iColumnIndex + 1)
        (SetColumnText sh items lv c.id iItem iColumnIndex)
    else refreshColumns sh items iItem rest iColumnIndex lv

/-- The first part of `ModifyItem`: the internal index the name is resolved to, through the
list view first and through `m_AwaitingAddList` when no row carries the name. -/
def ModifyItem_locate (s : CShellBrowser) (FileName : String) : Int :=
  if LocateFileItemIndex s FileName == -1 then
    AwaitingAdd_find s.items FileName s.m_AwaitingAddList
  else
    match ListView_GetItem s.m_hListView (LocateFileItemIndex s FileName) with
    | some lvItem => lvItem.lParam
    | none => -1

/-- The first part of `ModifyItem`, its effect: when a row carries the name and
`SHGetFileInfo` answers, the overlay of the row is set again. -/
def ModifyItem_overlay (sh : Shell) (s : CShellBrowser) (FileName : String) : CShellBrowser :=
  if LocateFileItemIndex s FileName == -1 then s
  else
    match sh.SHGetFileInfo (PathAppend s.m_CurDir FileName) with
    | some iIcon =>
      let lv := ListView_SetItem s.m_hListView (LocateFileItemIndex s FileName)
        (fun r => { r with overlay := overlayState (INDEXTOOVERLAYMASK (iIcon >>> 24)) })
      { s with m_hListView := lv }
    | none => s

/-- The second part of `ModifyItem`, entered with `iItemInternal != -1`: the old size is
taken off the totals, the file is probed into `m_pwfdFiles[iItemInternal]`, and either the
new size is added and the row refreshed, or the stored size is zeroed. -/
def ModifyItem_update (sh : Shell) (s : CShellBrowser) (FileName : String) (iItem : Int)
    (iItemInternal : Int) : CShellBrowser :=
  let old := (slotAt s.items iItemInternal).m_pwfdFiles
  let bSelected := ListView_IsSelected s.m_hListView iItem
  let total := sub64 s.m_ulTotalDirSize (ulFileSize old)
  let selection :=
    if bSelected then sub64 s.m_ulFileSelectionSize (ulFileSize old)
    else s.m_ulFileSelectionSize
  match sh.FindFirstFile (PathAppend s.m_CurDir FileName) with
  | some wfd =>
    let items := setSlot s.items iItemInternal (fun it => { it with m_pwfdFiles := wfd })
    let lv := ListView_SetItemState s.m_hListView iItem (fun r =>
      { r with cut := wfd.dwFileAttributes &&& FILE_ATTRIBUTE_HIDDEN == FILE_ATTRIBUTE_HIDDEN })
    let selection2 := if bSelected then add64 selection (ulFileSize wfd) else selection
    let lv2 :=
      if s.m_ViewMode == ViewMode.VM_DETAILS then
        match s.m_pActiveColumnList with
        | some columns => refreshColumns sh items iItem columns 0 lv
        | none => lv
      else lv
    { s with
      items := items
      m_ulTotalDirSize := add64 total (ulFileSize wfd)
      m_ulFileSelectionSize := selection2
      m_hListView := lv2 }
  | none =>
    let items := setSlot s.items iItemInternal (fun it =>
      { it with m_pwfdFiles := { it.m_pwfdFiles with nFileSizeLow := 0, nFileSizeHigh := 0 } })
    { s with
      items := items
      m_ulTotalDirSize := total
      m_ulFileSelectionSize := selection }

/-- The method `CShellBrowser::ModifyItem(const TCHAR *FileName)`. -/
def ModifyItem (sh : Shell) (s : CShellBrowser) (FileName : String) : CShellBrowser :=
  if ModifyItem_locate s FileName != -1 then
    ModifyItem_update sh (ModifyItem_overlay sh s FileName) FileName
      (LocateFileItemIndex s FileName) (ModifyItem_locate s FileName)
  else ModifyItem_overlay sh s FileName

/-! ## RenameItem -/

/-- Modelled from the spec: `ProcessItemFileName(iItemInternal)` is declared outside the
files at hand.  It yields the text a row shows for an item, here its cached display name. -/
def ProcessItemFileName (s : CShellBrowser) (iItemInternal : Int) : String :=
  (slotAt s.items iItemInternal).m_pExtraItemInfo.szDisplayName

/-- Modelled from the spec: `IsFileFiltered(iItemInternal)` is declared outside the files at
hand.  It tells whether the item is excluded by the active filter. -/
def IsFileFiltered (sh : Shell) (s : CShellBrowser) (iItemInternal : Int) : Bool :=
  s.m_bApplyFilter && sh.filterExcludes (slotAt s.items iItemInternal).m_pwfdFiles.cFileName

/-- Modelled from the spec: `RemoveFilteredItem(iItem, iItemInternal)` is declared outside
the files at hand.  The view is asked to delete the row of the item; the item remains in
the item store and becomes row-less. -/
def RemoveFilteredItem (s : CShellBrowser) (iItem : Int) (_iItemInternal : Int) :
    CShellBrowser :=
  ListView_DeleteItem s iItem

/-- The part of `RenameItem` after the stored identifier and names were updated: the icon is
retrieved again and, when it is, the row of the item is updated and filtered. -/
def RenameItem_refresh (sh : Shell) (s : CShellBrowser) (pidlNew : Pidl)
    (iItemInternal : Int) : CShellBrowser :=
  match sh.SHGetFileInfo_PIDL pidlNew with
  | some iIcon =>
    if ListView_FindItem s.m_hListView iItemInternal != -1 then
      let iItem := ListView_FindItem s.m_hListView iItemInternal
      let lv := ListView_SetItem s.m_hListView iItem (fun r =>
        { r with
          iImage := iIcon
          pszText := ProcessItemFileName s iItemInternal
          overlay := overlayState (INDEXTOOVERLAYMASK (iIcon >>> 24)) })
      let s1 : CShellBrowser := { s with m_hListView := lv }
      if IsFileFiltered sh s1 iItemInternal then RemoveFilteredItem s1 iItem iItemInternal
      else s1
    else s
  | none => s

/-- The method `CShellBrowser::RenameItem(PCIDLIST_ABSOLUTE pidlOld, PCIDLIST_ABSOLUTE
pidlNew)`.  The helper `GetDisplayName` is the display-name lookup of the shell on an
absolute identifier. -/
def RenameItem (sh : Shell) (s : CShellBrowser) (pidlOld pidlNew : Pidl) : CShellBrowser :=
  if LocateFileItemInternalIndex s pidlOld == -1 then s
  else if sh.SHBindToParent pidlNew then
    match sh.GetDisplayNameOf pidlNew (SHGDN_INFOLDER ||| SHGDN_FORPARSING) with
    | some szDisplayName =>
      let items := setSlot s.items (LocateFileItemInternalIndex s pidlOld) (fun it =>
        { it with
          m_pExtraItemInfo := ⟨ILFindLastID pidlNew, szDisplayName⟩
          m_pwfdFiles := { it.m_pwfdFiles with cFileName := szDisplayName } })
      RenameItem_refresh sh { s with items := items } pidlNew
        (LocateFileItemInternalIndex s pidlOld)
    | none => s
  else s

/-! ## AddItem -/

/-- Modelled from the spec: `SetItemInformation(pidlDirectory, pidlRelative, szDisplayName)`
is declared outside the files at hand.  It is `allocateSlot`: the first free slot is taken,
or the table grows by one; the directory-enumeration record, the relative identifier and
the display name are stored, and the index of the slot is returned. -/
def SetItemInformation (sh : Shell) (s : CShellBrowser) (pidlDirectory pidlRelative : Pidl)
    (szDisplayName : String) : CShellBrowser × Int :=
  let it : ItemSlot :=
    ⟨1, sh.directoryRecord (pidlDirectory ++ pidlRelative), ⟨pidlRelative, szDisplayName⟩⟩
  if s.items.findIdx (fun x => x.m_pItemMap == 0) < s.items.length then
    ({ s with items := s.items.set (s.items.findIdx (fun x => x.m_pItemMap == 0)) it },
      s.items.findIdx (fun x => x.m_pItemMap == 0))
  else ({ s with items := s.items ++ [it] }, s.items.length)

/-- Modelled from the spec: `DetermineItemSortedPosition(iItemId)` is declared outside the
files at hand.  It is `determineSortedPosition`: the 0-based insertion position of the item
among the rows under the active sort order, after the rows of equal key. -/
def DetermineItemSortedPosition (sh : Shell) (s : CShellBrowser) (iItemId : Int) : Int :=
  (s.m_hListView.takeWhile (fun r =>
    !sh.sortsAfter (slotAt s.items r.lParam) (slotAt s.items iItemId))).length

/-- Modelled from the spec: `AddItemInternal(iItemIndex, iItemId, bPosition)` is declared
outside the files at hand.  The view is asked to insert a row bound to the internal index,
at the position when one is given and at the end otherwise; the size of the item enters
the directory total and the live item count grows by one. -/
def AddItemInternal (sh : Shell) (s : CShellBrowser) (iItemIndex : Int) (iItemId : Int)
    (bPosition : Bool) : CShellBrowser :=
  let it := slotAt s.items iItemId
  let icon := (sh.SHGetFileInfo_PIDL (s.m_pidlDirectory ++ it.m_pExtraItemInfo.pridl)).getD 0
  let row : LVITEM :=
    ⟨iItemId, false,
      it.m_pwfdFiles.dwFileAttributes &&& FILE_ATTRIBUTE_HIDDEN == FILE_ATTRIBUTE_HIDDEN,
      overlayState (INDEXTOOVERLAYMASK (icon >>> 24)), icon, ProcessItemFileName s iItemId, []⟩
  let lv :=
    if bPosition && 0 ≤ iItemIndex then ListView_InsertItem s.m_hListView iItemIndex.toNat row
    else s.m_hListView ++ [row]
  { s with
    m_hListView := lv
    m_ulTotalDirSize := add64 s.m_ulTotalDirSize (ulFileSize it.m_pwfdFiles)
    m_nTotalItems := s.m_nTotalItems + 1 }

/-- Modelled from the spec: `AddItemInternal(pidlDirectory, pidlRelative, szFileName,
iItemIndex, bPosition)` is declared outside the files at hand.  A slot is allocated for
the item and its row is inserted as by the overload on an internal index. -/
def AddItemInternal_pidl (sh : Shell) (s : CShellBrowser) (pidlDirectory pidlRelative : Pidl)
    (szFileName : String) (iItemIndex : Int) (bPosition : Bool) : CShellBrowser :=
  AddItemInternal sh (SetItemInformation sh s pidlDirectory pidlRelative szFileName).1
    iItemIndex (SetItemInformation sh s pidlDirectory pidlRelative szFileName).2 bPosition

/-- The row `InsertAwaitingItems` gives to an item that awaits insertion. -/
def awaitingRow (s : CShellBrowser) (a : AwaitingAdd_t) : LVITEM :=
  ⟨a.iItemInternal, false, false, 0, 0, ProcessItemFileName s a.iItemInternal, []⟩

/-- Modelled from the spec: `InsertAwaitingItems(bInsertIntoGroup)` is declared outside the
files at hand.  The items that await insertion are promoted: each gets its row at the end
of the view, and the list of awaiting items is emptied. -/
def InsertAwaitingItems (s : CShellBrowser) (_bInsertIntoGroup : Bool) : CShellBrowser :=
  { s with
    m_hListView := s.m_hListView ++ s.m_AwaitingAddList.map (awaitingRow s)
    m_AwaitingAddList := [] }

/-- The innermost block of `AddItem`, reached when the three shell lookups succeeded. -/
def AddItem_insert (sh : Shell) (s : CShellBrowser) (pidlFull : Pidl)
    (szDisplayName : String) : CShellBrowser :=
  let pidlRelative := ILFindLastID pidlFull
  let bDropped := s.m_DroppedFileNameList.any (fun d => szDisplayName == d.szFileName)
  if s.m_bInsertSorted && !bDropped then
    let r := SetItemInformation sh s s.m_pidlDirectory pidlRelative szDisplayName
    let iSorted := DetermineItemSortedPosition sh r.1 r.2
    InsertAwaitingItems (AddItemInternal sh r.1 iSorted r.2 true) s.m_bShowInGroups
  else
    InsertAwaitingItems
      (AddItemInternal_pidl sh s s.m_pidlDirectory pidlRelative szDisplayName (-1) false)
      s.m_bShowInGroups

/-- The lookups of `AddItem`: `some` of the resulting state when `bFileAdded` is set, `none`
when one of `GetIdlFromParsingName`, `SHBindToParent`, `GetDisplayNameOf` failed. -/
def AddItem_bFileAdded (sh : Shell) (s : CShellBrowser) (szFileName : String) :
    Option CShellBrowser :=
  match sh.GetIdlFromParsingName (PathAppend s.m_CurDir szFileName) with
  | some pidlFull =>
    if sh.SHBindToParent pidlFull then
      match sh.GetDisplayNameOf pidlFull
          (if s.m_bVirtualFolder then SHGDN_INFOLDER
           else SHGDN_INFOLDER ||| SHGDN_FORPARSING) with
      | some szDisplayName => some (AddItem_insert sh s pidlFull szDisplayName)
      | none => none
    else none
  | none => none

/-- The method `CShellBrowser::AddItem(const TCHAR *szFileName)`. -/
def AddItem (sh : Shell) (s : CShellBrowser) (szFileName : String) : CShellBrowser :=
  match AddItem_bFileAdded sh s szFileName with
  | some s1 => s1
  | none => { s with m_FilesAdded := s.m_FilesAdded ++ [⟨szFileName⟩] }

/-! ## OnShellNotify -/

/-- The method `CShellBrowser::OnShellNotify`, on the event and the two identifiers read
from the notification. -/
def OnShellNotify (sh : Shell) (s : CShellBrowser) (event : Nat) (pidls0 pidls1 : Pidl) :
    CShellBrowser :=
  if event == SHCNE_RENAMEFOLDER || event == SHCNE_RENAMEITEM then
    if ILIsParent s.m_pidlDirectory pidls0 true && ILIsParent s.m_pidlDirectory pidls1 true then
      RenameItem sh s pidls0 pidls1
    else if ILIsParent s.m_pidlDirectory pidls0 true then
      RemoveItem s pidls0
    else if ILIsParent s.m_pidlDirectory pidls1 true then
      s
    else s
  else if event == SHCNE_RMDIR || event == SHCNE_DELETE then
    if ILIsParent s.m_pidlDirectory pidls0 true then
      RemoveItem s pidls0
    else s
  else s

/-! ## Notions used by the statements -/

/-- An identifier is inside the monitored directory when its immediate parent is the
identifier of the monitored directory. -/
def Inside (s : CShellBrowser) (pidl : Pidl) : Prop :=
  ∃ id : Nat, pidl = s.m_pidlDirectory ++ [id]

/-- A rename-kind event. -/
def IsRenameEvent (event : Nat) : Prop :=
  event = SHCNE_RENAMEITEM ∨ event = SHCNE_RENAMEFOLDER

/-- A remove-kind event. -/
def IsRemoveEvent (event : Nat) : Prop :=
  event = SHCNE_DELETE ∨ event = SHCNE_RMDIR

/-! ## Sample data -/

/-- A file record with a name and a size below `2 ^ 32`. -/
def sampleRecord (name : String) (size : Nat) : WIN32_FIND_DATA :=
  ⟨0x20, 0, 0, 0, 0, size, name, ""⟩

/-- A live slot for a file of the monitored directory. -/
def sampleSlot (id : Nat) (name : String) (size : Nat) : ItemSlot :=
  ⟨1, sampleRecord name size, ⟨[id], name⟩⟩

/-- A row bound to an internal index. -/
def sampleRow (lParam : Int) (selected : Bool) (name : String) : LVITEM :=
  ⟨lParam, selected, false, 0, 0, name, []⟩

/-- A shell in which every lookup and every probe fails. -/
def silentShell : Shell where
  GetIdlFromParsingName := fun _ => none
  SHBindToParent := fun _ => false
  GetDisplayNameOf := fun _ _ => none
  FindFirstFile := fun _ => none
  SHGetFileInfo := fun _ => none
  SHGetFileInfo_PIDL := fun _ => none
  directoryRecord := fun _ => default
  sortsAfter := fun _ _ => false
  filterExcludes := fun _ => false
  columnText := fun _ _ => ""

/-- A browser on the directory `[1, 2]` showing two files, the first one selected. -/
def sampleBrowser : CShellBrowser where
  m_ID := 7
  m_pidlDirectory := [1, 2]
  m_CurDir := "C:\\dir"
  m_bVirtualFolder := false
  m_bInsertSorted := true
  m_bApplyFilter := false
  m_bShowInGroups := false
  m_ViewMode := ViewMode.VM_OTHER
  m_pActiveColumnList := none
  m_DroppedFileNameList := []
  m_FilesAdded := []
  m_AwaitingAddList := []
  items := [sampleSlot 10 "a.txt" 5, sampleSlot 11 "b.txt" 7]
  m_ulTotalDirSize := 12
  m_ulFileSelectionSize := 5
  m_nTotalItems := 2
  m_hListView := [sampleRow 0 true "a.txt", sampleRow 1 false "b.txt"]
  m_hOwner := []

/-- A shell in which `FindFirstFile` finds the given record and every other lookup fails. -/
def probingShell (wfd : WIN32_FIND_DATA) : Shell :=
  { silentShell with FindFirstFile := fun _ => some wfd }

/-- The invariant of the directory total: `m_ulTotalDirSize` is the sum of the stored sizes
of the live slots, as a 64-bit unsigned value. -/
def TotalDirSizeInv (s : CShellBrowser) : Prop :=
  s.m_ulTotalDirSize = liveSizeSum s.items % 2 ^ 64

/-- Every view row and every awaiting-add entry is bound to a live slot. -/
def BoundToLive (s : CShellBrowser) : Prop :=
  (∀ r ∈ s.m_hListView, isLive s r.lParam = true) ∧
  (∀ a ∈ s.m_AwaitingAddList, isLive s a.iItemInternal = true)

instance (s : CShellBrowser) : Decidable (TotalDirSizeInv s) := by
  unfold TotalDirSizeInv
  infer_instance

instance (s : CShellBrowser) : Decidable (BoundToLive s) := by
  unfold BoundToLive
  infer_instance

/-- A browser on the directory `[1, 2]` whose only item, `a.txt` of size 5, has its slot
but still awaits insertion into the view. -/
def awaitingBrowser : CShellBrowser :=
  { sampleBrowser with
    m_AwaitingAddList := [⟨0⟩]
    items := [sampleSlot 10 "a.txt" 5]
    m_ulTotalDirSize := 5
    m_ulFileSelectionSize := 0
    m_nTotalItems := 1
    m_hListView := [] }

/-- The item is not added by `AddItem`: the name-to-identifier resolution fails, or binding
to the parent folder fails, or the display-name lookup fails. -/
def AddItem_lookup_fails (sh : Shell) (s : CShellBrowser) (szFileName : String) : Prop :=
  sh.GetIdlFromParsingName (PathAppend s.m_CurDir szFileName) = none ∨
  ∃ pidlFull, sh.GetIdlFromParsingName (PathAppend s.m_CurDir szFileName) = some pidlFull ∧
    (sh.SHBindToParent pidlFull = false ∨
     sh.GetDisplayNameOf pidlFull
      (if s.m_bVirtualFolder then SHGDN_INFOLDER else SHGDN_INFOLDER ||| SHGDN_FORPARSING)
      = none)

/-- A shell in which the file `c.txt` of the directory `C:\dir` resolves to the identifier
`[1, 2, 12]`, binds to its parent and has the display name `c.txt`. -/
def resolvingShell : Shell :=
  { silentShell with
    GetIdlFromParsingName := fun path => if path = "C:\\dir\\c.txt" then some [1, 2, 12] else none
    SHBindToParent := fun _ => true
    GetDisplayNameOf := fun _ _ => some "c.txt"
    directoryRecord := fun _ => sampleRecord "c.txt" 3 }

/-- Every live item is shown by a view row, and `m_nTotalItems` is the number of rows. -/
def ViewShowsLive (s : CShellBrowser) : Prop :=
  (∀ i, isLive s i = true → ∃ r ∈ s.m_hListView, r.lParam = i) ∧
  s.m_nTotalItems = s.m_hListView.length

/-- A removal: `RemoveItem` on an identifier, or `RemoveItem` on an internal index. -/
inductive RemoveOp where
  | byPidl (pidl : Pidl)
  | byIndex (iItemInternal : Int)
  deriving DecidableEq, Repr

/-- The state after a removal. -/
def RemoveOp.run (s : CShellBrowser) : RemoveOp → CShellBrowser
  | RemoveOp.byPidl pidl => RemoveItem s pidl
  | RemoveOp.byIndex i => RemoveItem_int s i

/-- A removal by internal index is applied to the index of a live item. -/
def RemoveOp.onLive (s : CShellBrowser) : RemoveOp → Bool
  | RemoveOp.byPidl _ => true
  | RemoveOp.byIndex i => isLive s i

/-- Every removal by internal index of the sequence is applied to a live item. -/
def removesOnLive : CShellBrowser → List RemoveOp → Bool
  | _, [] => true
  | s, op :: rest => op.onLive s && removesOnLive (op.run s) rest

/-- The removal sends the folder-empty message exactly once when it takes `m_nTotalItems`
from nonzero to zero, and sends nothing otherwise. -/
def SignalsOnTransition (s : CShellBrowser) (op : RemoveOp) : Prop :=
  (op.run s).m_hOwner
    = s.m_hOwner ++
      (if s.m_nTotalItems ≠ 0 ∧ (op.run s).m_nTotalItems = 0 then [⟨s.m_ID, true⟩] else [])

/-- Each removal of the sequence, in the state it is applied to, signals on the transition
of `m_nTotalItems` from nonzero to zero and only then. -/
def AllSignalOnTransition : CShellBrowser → List RemoveOp → Prop
  | _, [] => True
  | s, op :: rest => SignalsOnTransition s op ∧ AllSignalOnTransition (op.run s) rest

/-- A browser on the directory `[1, 2]` with two live items: `a.txt` is shown by a row,
`b.txt` has its slot and still awaits insertion into the view. -/
def halfShownBrowser : CShellBrowser :=
  { sampleBrowser with
    m_AwaitingAddList := [⟨1⟩]
    m_ulFileSelectionSize := 0
    m_hListView := [sampleRow 0 false "a.txt"] }

instance (s : CShellBrowser) (op : RemoveOp) : Decidable (SignalsOnTransition s op) := by
  unfold SignalsOnTransition
  infer_instance

/-- The sample browser on a virtual folder. -/
def virtualBrowser : CShellBrowser :=
  { sampleBrowser with m_bVirtualFolder := true }

/-- A shell in which `report` resolves to the identifier `[1, 2, 12]`, every binding
succeeds, and the object `[1, 2, 12]` is shown as `Report` in its folder and as
`Report.txt` for parsing, the object `[1, 2, 13]` as `Draft` and as `Draft.txt`. -/
def namingShell : Shell :=
  { silentShell with
    GetIdlFromParsingName := fun path =>
      if path = "C:\\dir\\report" then some [1, 2, 12] else none
    SHBindToParent := fun _ => true
    GetDisplayNameOf := fun pidl uFlags =>
      if pidl = [1, 2, 12] then
        (if uFlags = SHGDN_INFOLDER then some "Report" else some "Report.txt")
      else if pidl = [1, 2, 13] then
        (if uFlags = SHGDN_INFOLDER then some "Draft" else some "Draft.txt")
      else none
    directoryRecord := fun _ => sampleRecord "Report.txt" 3 }

/-- The row state the view answers for an item (`query-row-state` on the bound index): the
row found for the internal index is marked selected. -/
def itemSelected (s : CShellBrowser) (i : Int) : Bool :=
  ListView_IsSelected s.m_hListView (ListView_FindItem s.m_hListView i)

/-- The share of slot `k` in the selection total: its stored size when the slot is live and
its row is marked selected. -/
def selectedSize (s : CShellBrowser) (k : Nat) : Nat :=
  if isLive s k && itemSelected s k then ulFileSize (slotAt s.items k).m_pwfdFiles else 0

/-- The sum of the stored sizes of the live items that are marked selected in the view. -/
def selectedSizeSum (s : CShellBrowser) : Nat :=
  ((List.range s.items.length).map (selectedSize s)).sum

/-- The invariant of the selection total: `m_ulFileSelectionSize` is the sum of the stored
sizes of the live items marked selected in the view, as a 64-bit unsigned value. -/
def SelectionSizeInv (s : CShellBrowser) : Prop :=
  s.m_ulFileSelectionSize = selectedSizeSum s % 2 ^ 64

/-- The items marked selected in the view are live: every row that is marked selected is
bound to a live slot. -/
def SelectedAreLive (s : CShellBrowser) : Prop :=
  ∀ r ∈ s.m_hListView, r.selected = true → isLive s r.lParam = true

instance (s : CShellBrowser) : Decidable (SelectionSizeInv s) := by
  unfold SelectionSizeInv
  infer_instance

instance (s : CShellBrowser) : Decidable (SelectedAreLive s) := by
  unfold SelectedAreLive
  infer_instance

/-- What the selection total depends on in a row: the bound index and the selected bit. -/
def rowKey (r : LVITEM) : Int × Bool :=
  (r.lParam, r.selected)

/-- The selected bit of the first row bound to an internal index, `false` without one. -/
def selectedOf (lv : List LVITEM) (i : Int) : Bool :=
  match lv.find? (fun r => r.lParam == i) with
  | some r => r.selected
  | none => false

/-! ## Identifier lists -/

theorem ILIsParent_immediate (dir pidl : Pidl) :
    ILIsParent dir pidl true = true ↔ ∃ id : Nat, pidl = dir ++ [id] := by
  simp only [ILIsParent, if_true, Bool.and_eq_true, bne_iff_ne, ne_eq, beq_iff_eq]
  constructor
  · rintro ⟨hne, hd⟩
    refine ⟨pidl.getLast hne, ?_⟩
    rw [← hd]
    exact (List.dropLast_append_getLast hne).symm
  · rintro ⟨id, rfl⟩
    simp

theorem ILIsParent_inside (s : CShellBrowser) (pidl : Pidl) :
    ILIsParent s.m_pidlDirectory pidl true = true ↔ Inside s pidl :=
  ILIsParent_immediate s.m_pidlDirectory pidl

theorem ILIsParent_not_inside (s : CShellBrowser) (pidl : Pidl) (h : ¬ Inside s pidl) :
    ILIsParent s.m_pidlDirectory pidl true = false := by
  rw [← Bool.not_eq_true, ILIsParent_inside]
  exact h

/-! ## Routing of notifications -/

/-- Claim C1.  For a rename-kind event with subjects `(old, new)`, `OnShellNotify` gives the
state of `RenameItem old new` when both subjects are inside the monitored directory, the
state of `RemoveItem old` when only the old subject is inside, and the state before the
event when the old subject is not inside (whether or not the new one is). -/
theorem OnShellNotify_rename_routing (sh : Shell) (s : CShellBrowser) (event : Nat)
    (old new : Pidl) (hev : IsRenameEvent event) :
    (Inside s old → Inside s new →
      OnShellNotify sh s event old new = RenameItem sh s old new) ∧
    (Inside s old → ¬ Inside s new →
      OnShellNotify sh s event old new = RemoveItem s old) ∧
    (¬ Inside s old → Inside s new → OnShellNotify sh s event old new = s) ∧
    (¬ Inside s old → ¬ Inside s new → OnShellNotify sh s event old new = s) := by
  have hk : (event == SHCNE_RENAMEFOLDER || event == SHCNE_RENAMEITEM) = true := by
    rcases hev with h | h <;> simp [h]
  refine ⟨?_, ?_, ?_, ?_⟩
  · intro ho hn
    simp [OnShellNotify, hk, (ILIsParent_inside s old).2 ho, (ILIsParent_inside s new).2 hn]
  · intro ho hn
    simp [OnShellNotify, hk, (ILIsParent_inside s old).2 ho, ILIsParent_not_inside s new hn]
  · intro ho hn
    simp [OnShellNotify, hk, ILIsParent_not_inside s old ho]
  · intro ho hn
    simp [OnShellNotify, hk, ILIsParent_not_inside s old ho]

theorem OnShellNotify_rename_routing_witness :
    OnShellNotify silentShell sampleBrowser SHCNE_RENAMEITEM [1, 2, 10] [1, 2, 12]
      = RenameItem silentShell sampleBrowser [1, 2, 10] [1, 2, 12] ∧
    OnShellNotify silentShell sampleBrowser SHCNE_RENAMEFOLDER [1, 2, 10] [1, 3, 10]
      = RemoveItem sampleBrowser [1, 2, 10] ∧
    OnShellNotify silentShell sampleBrowser SHCNE_RENAMEITEM [1, 3, 10] [1, 2, 10]
      = sampleBrowser ∧
    OnShellNotify silentShell sampleBrowser SHCNE_RENAMEITEM [1, 3, 10] [4]
      = sampleBrowser :=
  ⟨(OnShellNotify_rename_routing silentShell sampleBrowser SHCNE_RENAMEITEM
      [1, 2, 10] [1, 2, 12] (Or.inl rfl)).1 ⟨10, rfl⟩ ⟨12, rfl⟩,
   (OnShellNotify_rename_routing silentShell sampleBrowser SHCNE_RENAMEFOLDER
      [1, 2, 10] [1, 3, 10] (Or.inr rfl)).2.1 ⟨10, rfl⟩ (by simp [Inside, sampleBrowser]),
   (OnShellNotify_rename_routing silentShell sampleBrowser SHCNE_RENAMEITEM
      [1, 3, 10] [1, 2, 10] (Or.inl rfl)).2.2.1 (by simp [Inside, sampleBrowser]) ⟨10, rfl⟩,
   (OnShellNotify_rename_routing silentShell sampleBrowser SHCNE_RENAMEITEM
      [1, 3, 10] [4] (Or.inl rfl)).2.2.2 (by simp [Inside, sampleBrowser])
      (by simp [Inside, sampleBrowser])⟩

/-- Claim C2.  For a remove-kind event whose subject is not inside the monitored directory,
`OnShellNotify` returns the state it was given, so the item store, the live item count,
both totals and the view rows are unchanged whatever the item store holds; when the
subject is inside, the result is that of `RemoveItem` on the subject. -/
theorem OnShellNotify_remove_routing (sh : Shell) (s : CShellBrowser) (event : Nat)
    (pidl other : Pidl) (hev : IsRemoveEvent event) :
    (¬ Inside s pidl →
      OnShellNotify sh s event pidl other = s ∧
      (OnShellNotify sh s event pidl other).items = s.items ∧
      (OnShellNotify sh s event pidl other).m_nTotalItems = s.m_nTotalItems ∧
      (OnShellNotify sh s event pidl other).m_ulTotalDirSize = s.m_ulTotalDirSize ∧
      (OnShellNotify sh s event pidl other).m_ulFileSelectionSize = s.m_ulFileSelectionSize ∧
      (OnShellNotify sh s event pidl other).m_hListView = s.m_hListView) ∧
    (Inside s pidl → OnShellNotify sh s event pidl other = RemoveItem s pidl) := by
  have hk : (event == SHCNE_RENAMEFOLDER || event == SHCNE_RENAMEITEM) = false := by
    rcases hev with h | h <;> simp [h] <;> decide
  have hr : (event == SHCNE_RMDIR || event == SHCNE_DELETE) = true := by
    rcases hev with h | h <;> simp [h]
  constructor
  · intro hp
    have h : OnShellNotify sh s event pidl other = s := by
      simp [OnShellNotify, hk, hr, ILIsParent_not_inside s pidl hp]
    rw [h]
    simp
  · intro hp
    simp [OnShellNotify, hk, hr, (ILIsParent_inside s pidl).2 hp]

theorem OnShellNotify_remove_routing_witness :
    OnShellNotify silentShell sampleBrowser SHCNE_DELETE [1, 3, 10] [] = sampleBrowser ∧
    OnShellNotify silentShell sampleBrowser SHCNE_RMDIR [1, 2, 10] []
      = RemoveItem sampleBrowser [1, 2, 10] :=
  ⟨((OnShellNotify_remove_routing silentShell sampleBrowser SHCNE_DELETE [1, 3, 10] []
      (Or.inl rfl)).1 (by simp [Inside, sampleBrowser])).1,
   (OnShellNotify_remove_routing silentShell sampleBrowser SHCNE_RMDIR [1, 2, 10] []
      (Or.inr rfl)).2 ⟨10, rfl⟩⟩

/-! ## The slot table -/

theorem slotAt_of_live {items : List ItemSlot} {i : Int}
    (h : (slotAt items i).m_pItemMap = 1) : 0 ≤ i ∧ i.toNat < items.length := by
  unfold slotAt at h
  by_cases hi : i < 0
  · simp [hi] at h
  · simp only [hi, if_false] at h
    refine ⟨by omega, ?_⟩
    by_contra hlen
    rw [List.getD_eq_default _ _ (by omega)] at h
    exact absurd h (by decide)

theorem slotAt_eq_getElem {items : List ItemSlot} {i : Int} (h0 : 0 ≤ i)
    (h : i.toNat < items.length) : slotAt items i = items[i.toNat] := by
  unfold slotAt
  rw [if_neg (by omega), List.getD_eq_getElem _ _ h]

theorem length_setSlot (items : List ItemSlot) (i : Int) (f : ItemSlot → ItemSlot) :
    (setSlot items i f).length = items.length := by
  unfold setSlot
  split
  · rfl
  · split <;> simp

theorem setSlot_eq_set {items : List ItemSlot} {i : Int} (f : ItemSlot → ItemSlot)
    (h0 : 0 ≤ i) (h : i.toNat < items.length) :
    setSlot items i f = items.set i.toNat (f (slotAt items i)) := by
  unfold setSlot
  rw [if_neg (by omega), List.getElem?_eq_getElem h, slotAt_eq_getElem h0 h]

theorem slotAt_setSlot_self {items : List ItemSlot} {i : Int} (f : ItemSlot → ItemSlot)
    (h0 : 0 ≤ i) (h : i.toNat < items.length) :
    slotAt (setSlot items i f) i = f (slotAt items i) := by
  rw [slotAt_eq_getElem h0 (by rw [length_setSlot]; exact h)]
  simp [setSlot_eq_set f h0 h]

theorem slotAt_setSlot_ne (items : List ItemSlot) {i j : Int} (f : ItemSlot → ItemSlot)
    (hij : j ≠ i) : slotAt (setSlot items i f) j = slotAt items j := by
  unfold setSlot
  split
  · rfl
  · split
    · rename_i hi it hit
      unfold slotAt
      split
      · rfl
      · rename_i hj
        have hne : i.toNat ≠ j.toNat := by omega
        simp [List.getD_eq_getElem?_getD, List.getElem?_set, hne]
    · rfl

/-! ## ModifyItem -/

theorem ModifyItem_overlay_items (sh : Shell) (s : CShellBrowser) (FileName : String) :
    (ModifyItem_overlay sh s FileName).items = s.items := by
  unfold ModifyItem_overlay
  split
  · rfl
  · split <;> rfl

theorem ModifyItem_overlay_frame (sh : Shell) (s : CShellBrowser) (FileName : String) :
    (ModifyItem_overlay sh s FileName).m_ulTotalDirSize = s.m_ulTotalDirSize ∧
    (ModifyItem_overlay sh s FileName).m_ulFileSelectionSize = s.m_ulFileSelectionSize ∧
    (ModifyItem_overlay sh s FileName).m_nTotalItems = s.m_nTotalItems ∧
    (ModifyItem_overlay sh s FileName).m_CurDir = s.m_CurDir ∧
    (ModifyItem_overlay sh s FileName).m_FilesAdded = s.m_FilesAdded ∧
    (ModifyItem_overlay sh s FileName).m_AwaitingAddList = s.m_AwaitingAddList ∧
    (ModifyItem_overlay sh s FileName).m_hOwner = s.m_hOwner := by
  unfold ModifyItem_overlay
  split
  · simp
  · split <;> simp

theorem sub64_spec (a b : Nat) :
    (sub64 a b + b) % 2 ^ 64 = a % 2 ^ 64 ∧ sub64 a b < 2 ^ 64 := by
  unfold sub64
  have h : (2:Nat) ^ 64 = 18446744073709551616 := by norm_num
  rw [h]
  omega

theorem ulFileSize_lt (wfd : WIN32_FIND_DATA) : ulFileSize wfd < 2 ^ 64 := by
  unfold ulFileSize QuadPart
  have h32 : (2:Nat) ^ 32 = 4294967296 := by norm_num
  have h64 : (2:Nat) ^ 64 = 18446744073709551616 := by norm_num
  rw [h32, h64]
  omega

/-- Claim C8.  When `ModifyItem` resolves the name (through a view row or through the
awaiting-add list) to a live item with stored size `size` and the probe `FindFirstFile`
fails, then afterwards both halves of the stored size are zero, `m_ulTotalDirSize` has gone
down by exactly `size` modulo `2 ^ 64`, the item is still live at the same internal index,
and `m_nTotalItems` is unchanged. -/
theorem ModifyItem_probe_failure (sh : Shell) (s : CShellBrowser) (FileName : String)
    (i : Int) (size : Nat)
    (hloc : ModifyItem_locate s FileName = i) (hfound : i ≠ -1)
    (hlive : isLive s i = true)
    (hsize : ulFileSize (slotAt s.items i).m_pwfdFiles = size)
    (hprobe : sh.FindFirstFile (PathAppend s.m_CurDir FileName) = none) :
    (slotAt (ModifyItem sh s FileName).items i).m_pwfdFiles.nFileSizeLow = 0 ∧
    (slotAt (ModifyItem sh s FileName).items i).m_pwfdFiles.nFileSizeHigh = 0 ∧
    ulFileSize (slotAt (ModifyItem sh s FileName).items i).m_pwfdFiles = 0 ∧
    ((ModifyItem sh s FileName).m_ulTotalDirSize + size) % 2 ^ 64
      = s.m_ulTotalDirSize % 2 ^ 64 ∧
    (ModifyItem sh s FileName).m_ulTotalDirSize < 2 ^ 64 ∧
    isLive (ModifyItem sh s FileName) i = true ∧
    (ModifyItem sh s FileName).m_nTotalItems = s.m_nTotalItems := by
  have hl : (slotAt s.items i).m_pItemMap = 1 := by simpa [isLive] using hlive
  obtain ⟨h0, hlt⟩ := slotAt_of_live hl
  have hov := ModifyItem_overlay_frame sh s FileName
  have hit := ModifyItem_overlay_items sh s FileName
  have hM : ModifyItem sh s FileName
      = ModifyItem_update sh (ModifyItem_overlay sh s FileName) FileName
          (LocateFileItemIndex s FileName) i := by
    unfold ModifyItem
    rw [hloc, if_pos (by simpa using hfound)]
  rw [hM]
  unfold ModifyItem_update
  rw [hov.2.2.2.1, hprobe]
  simp only [hit, hov.1, hov.2.2.1]
  rw [slotAt_setSlot_self _ h0 hlt]
  have hs := sub64_spec s.m_ulTotalDirSize size
  refine ⟨rfl, rfl, ?_, ?_, ?_, ?_, trivial⟩
  · simp [ulFileSize, QuadPart]
  · rw [hsize]; exact hs.1
  · rw [hsize]; exact hs.2
  · simp only [isLive]
    rw [slotAt_setSlot_self _ h0 hlt]
    simpa using hl

theorem ModifyItem_probe_failure_witness :
    (slotAt (ModifyItem silentShell sampleBrowser "a.txt").items 0).m_pwfdFiles.nFileSizeLow = 0 ∧
    (slotAt (ModifyItem silentShell sampleBrowser "a.txt").items 0).m_pwfdFiles.nFileSizeHigh = 0 ∧
    ulFileSize (slotAt (ModifyItem silentShell sampleBrowser "a.txt").items 0).m_pwfdFiles = 0 ∧
    ((ModifyItem silentShell sampleBrowser "a.txt").m_ulTotalDirSize + 5) % 2 ^ 64
      = sampleBrowser.m_ulTotalDirSize % 2 ^ 64 ∧
    (ModifyItem silentShell sampleBrowser "a.txt").m_ulTotalDirSize < 2 ^ 64 ∧
    isLive (ModifyItem silentShell sampleBrowser "a.txt") 0 = true ∧
    (ModifyItem silentShell sampleBrowser "a.txt").m_nTotalItems = sampleBrowser.m_nTotalItems :=
  ModifyItem_probe_failure silentShell sampleBrowser "a.txt" 0 5
    (by decide) (by decide) (by decide) (by decide) rfl

theorem setSlot_of_not_inbounds {items : List ItemSlot} {i : Int} (f : ItemSlot → ItemSlot)
    (h : ¬ (0 ≤ i ∧ i.toNat < items.length)) : setSlot items i f = items := by
  unfold setSlot
  split
  · rfl
  · rename_i hi
    have hlen : items.length ≤ i.toNat := by
      by_contra hc
      exact h ⟨by omega, by omega⟩
    rw [List.getElem?_eq_none hlen]

theorem slotAt_setSlot (items : List ItemSlot) (i j : Int) (f : ItemSlot → ItemSlot) :
    slotAt (setSlot items i f) j
      = if j = i ∧ 0 ≤ i ∧ i.toNat < items.length then f (slotAt items i)
        else slotAt items j := by
  by_cases hij : j = i
  · subst hij
    by_cases hb : 0 ≤ j ∧ j.toNat < items.length
    · rw [if_pos ⟨rfl, hb⟩, slotAt_setSlot_self f hb.1 hb.2]
    · rw [if_neg (fun h => hb h.2), setSlot_of_not_inbounds f hb]
  · rw [if_neg (fun h => hij h.1), slotAt_setSlot_ne items f hij]

theorem ModifyItem_of_not_located (sh : Shell) (s : CShellBrowser) (FileName : String)
    (h : ModifyItem_locate s FileName = -1) :
    ModifyItem sh s FileName = ModifyItem_overlay sh s FileName := by
  unfold ModifyItem
  rw [h]
  simp

theorem ModifyItem_of_no_match (sh : Shell) (s : CShellBrowser) (FileName : String)
    (hrow : LocateFileItemIndex s FileName = -1)
    (hwait : AwaitingAdd_find s.items FileName s.m_AwaitingAddList = -1) :
    ModifyItem sh s FileName = s := by
  have hl : ModifyItem_locate s FileName = -1 := by
    unfold ModifyItem_locate
    rw [hrow]
    simpa using hwait
  rw [ModifyItem_of_not_located sh s FileName hl]
  unfold ModifyItem_overlay
  rw [hrow]
  simp

theorem ModifyItem_of_probe_failure (sh : Shell) (s : CShellBrowser) (FileName : String)
    (hfound : ModifyItem_locate s FileName ≠ -1)
    (hprobe : sh.FindFirstFile (PathAppend s.m_CurDir FileName) = none) :
    (ModifyItem sh s FileName).items
      = setSlot s.items (ModifyItem_locate s FileName) (fun it =>
          { it with m_pwfdFiles :=
              { it.m_pwfdFiles with nFileSizeLow := 0, nFileSizeHigh := 0 } }) ∧
    (ModifyItem sh s FileName).m_ulTotalDirSize
      = sub64 s.m_ulTotalDirSize
          (ulFileSize (slotAt s.items (ModifyItem_locate s FileName)).m_pwfdFiles) := by
  have hov := ModifyItem_overlay_frame sh s FileName
  have hit := ModifyItem_overlay_items sh s FileName
  unfold ModifyItem
  rw [if_pos (by simpa using hfound)]
  unfold ModifyItem_update
  rw [hov.2.2.2.1, hprobe]
  simp only [hit, hov.1]
  exact ⟨trivial, trivial⟩

theorem ModifyItem_of_probe_success (sh : Shell) (s : CShellBrowser) (FileName : String)
    (wfd : WIN32_FIND_DATA) (hfound : ModifyItem_locate s FileName ≠ -1)
    (hprobe : sh.FindFirstFile (PathAppend s.m_CurDir FileName) = some wfd) :
    (ModifyItem sh s FileName).items
      = setSlot s.items (ModifyItem_locate s FileName)
          (fun it => { it with m_pwfdFiles := wfd }) ∧
    (ModifyItem sh s FileName).m_ulTotalDirSize
      = add64 (sub64 s.m_ulTotalDirSize
          (ulFileSize (slotAt s.items (ModifyItem_locate s FileName)).m_pwfdFiles))
          (ulFileSize wfd) := by
  have hov := ModifyItem_overlay_frame sh s FileName
  have hit := ModifyItem_overlay_items sh s FileName
  unfold ModifyItem
  rw [if_pos (by simpa using hfound)]
  unfold ModifyItem_update
  rw [hov.2.2.2.1, hprobe]
  simp only [hit, hov.1]
  exact ⟨trivial, trivial⟩

/-- Claim C10, amended.  `ModifyItem` leaves the stored relative identifier and the cached
display name of the item it resolves the name to unchanged.  When the probe fails the name
field of the file record is unchanged as well; when the probe succeeds the whole file record
of the item is the record the probe returned, name field included.  No slot other than the
resolved one changes, and when the name matches neither a view row nor an awaiting-add entry
the whole state is unchanged. -/
theorem ModifyItem_identity (sh : Shell) (s : CShellBrowser) (FileName : String) :
    (slotAt (ModifyItem sh s FileName).items (ModifyItem_locate s FileName)).m_pExtraItemInfo
      = (slotAt s.items (ModifyItem_locate s FileName)).m_pExtraItemInfo ∧
    (sh.FindFirstFile (PathAppend s.m_CurDir FileName) = none →
      (slotAt (ModifyItem sh s FileName).items
          (ModifyItem_locate s FileName)).m_pwfdFiles.cFileName
        = (slotAt s.items (ModifyItem_locate s FileName)).m_pwfdFiles.cFileName) ∧
    (∀ wfd, sh.FindFirstFile (PathAppend s.m_CurDir FileName) = some wfd →
      isLive s (ModifyItem_locate s FileName) = true →
      (slotAt (ModifyItem sh s FileName).items (ModifyItem_locate s FileName)).m_pwfdFiles
        = wfd) ∧
    (∀ j, j ≠ ModifyItem_locate s FileName →
      slotAt (ModifyItem sh s FileName).items j = slotAt s.items j) ∧
    (LocateFileItemIndex s FileName = -1 →
      AwaitingAdd_find s.items FileName s.m_AwaitingAddList = -1 →
      ModifyItem sh s FileName = s) := by
  by_cases hfound : ModifyItem_locate s FileName = -1
  · have hitems : (ModifyItem sh s FileName).items = s.items := by
      rw [ModifyItem_of_not_located sh s FileName hfound, ModifyItem_overlay_items]
    refine ⟨by rw [hitems], fun _ => by rw [hitems], ?_, fun j _ => by rw [hitems],
      ModifyItem_of_no_match sh s FileName⟩
    intro wfd _ hlive
    rw [hfound] at hlive
    simp [isLive, slotAt] at hlive
  · refine ⟨?_, ?_, ?_, ?_, ModifyItem_of_no_match sh s FileName⟩
    · cases hprobe : sh.FindFirstFile (PathAppend s.m_CurDir FileName) with
      | none =>
        rw [(ModifyItem_of_probe_failure sh s FileName hfound hprobe).1, slotAt_setSlot]
        split <;> rfl
      | some wfd =>
        rw [(ModifyItem_of_probe_success sh s FileName wfd hfound hprobe).1, slotAt_setSlot]
        split <;> rfl
    · intro hprobe
      rw [(ModifyItem_of_probe_failure sh s FileName hfound hprobe).1, slotAt_setSlot]
      split <;> rfl
    · intro wfd hprobe hlive
      have hl : (slotAt s.items (ModifyItem_locate s FileName)).m_pItemMap = 1 := by
        simpa [isLive] using hlive
      obtain ⟨h0, hlt⟩ := slotAt_of_live hl
      rw [(ModifyItem_of_probe_success sh s FileName wfd hfound hprobe).1,
        slotAt_setSlot_self _ h0 hlt]
    · intro j hj
      cases hprobe : sh.FindFirstFile (PathAppend s.m_CurDir FileName) with
      | none =>
        rw [(ModifyItem_of_probe_failure sh s FileName hfound hprobe).1,
          slotAt_setSlot_ne _ _ hj]
      | some wfd =>
        rw [(ModifyItem_of_probe_success sh s FileName wfd hfound hprobe).1,
          slotAt_setSlot_ne _ _ hj]

theorem ModifyItem_identity_witness :
    (slotAt (ModifyItem silentShell sampleBrowser "a.txt").items
        (ModifyItem_locate sampleBrowser "a.txt")).m_pwfdFiles.cFileName
      = (slotAt sampleBrowser.items (ModifyItem_locate sampleBrowser "a.txt")).m_pwfdFiles.cFileName ∧
    (slotAt (ModifyItem (probingShell (sampleRecord "A.TXT" 9)) sampleBrowser "a.txt").items
        (ModifyItem_locate sampleBrowser "a.txt")).m_pwfdFiles = sampleRecord "A.TXT" 9 ∧
    slotAt (ModifyItem (probingShell (sampleRecord "A.TXT" 9)) sampleBrowser "a.txt").items 1
      = slotAt sampleBrowser.items 1 ∧
    ModifyItem (probingShell (sampleRecord "A.TXT" 9)) sampleBrowser "c.txt" = sampleBrowser :=
  ⟨(ModifyItem_identity silentShell sampleBrowser "a.txt").2.1 rfl,
   (ModifyItem_identity (probingShell (sampleRecord "A.TXT" 9)) sampleBrowser "a.txt").2.2.1
      (sampleRecord "A.TXT" 9) rfl (by decide),
   (ModifyItem_identity (probingShell (sampleRecord "A.TXT" 9)) sampleBrowser "a.txt").2.2.2.1
      1 (by decide),
   (ModifyItem_identity (probingShell (sampleRecord "A.TXT" 9)) sampleBrowser "c.txt").2.2.2.2
      (by decide) (by decide)⟩

/-- Claim C10 as stated fails: the name `a.txt` is resolved to the live item `0`, the probe
succeeds with a record whose name field is `A.TXT`, and afterwards the name field of the
file record of item `0` is `A.TXT`, no longer `a.txt`. -/
theorem ModifyItem_identity_counterexample :
    ModifyItem_locate sampleBrowser "a.txt" = 0 ∧
    isLive sampleBrowser 0 = true ∧
    (slotAt sampleBrowser.items 0).m_pwfdFiles.cFileName = "a.txt" ∧
    (slotAt (ModifyItem (probingShell (sampleRecord "A.TXT" 9)) sampleBrowser "a.txt").items
        0).m_pwfdFiles.cFileName = "A.TXT" ∧
    ¬ ((slotAt (ModifyItem (probingShell (sampleRecord "A.TXT" 9)) sampleBrowser "a.txt").items
        0).m_pwfdFiles.cFileName = (slotAt sampleBrowser.items 0).m_pwfdFiles.cFileName) := by
  decide

/-! ## The directory total -/

theorem sum_map_set {α : Type} (g : α → Nat) (l : List α) (i : Nat) (h : i < l.length)
    (x : α) : ((l.set i x).map g).sum + g l[i] = (l.map g).sum + g x := by
  induction l generalizing i with
  | nil => simp at h
  | cons a t ih =>
    cases i with
    | zero => simp; omega
    | succ k =>
      simp only [List.length_cons, Nat.add_lt_add_iff_right] at h
      have := ih k h
      simp only [List.set_cons_succ, List.map_cons, List.sum_cons, List.getElem_cons_succ]
      omega

theorem liveSizeSum_setSlot {items : List ItemSlot} {i : Int} (f : ItemSlot → ItemSlot)
    (h0 : 0 ≤ i) (h : i.toNat < items.length) :
    liveSizeSum (setSlot items i f)
        + (if (slotAt items i).m_pItemMap == 1 then ulFileSize (slotAt items i).m_pwfdFiles
           else 0)
      = liveSizeSum items
        + (if (f (slotAt items i)).m_pItemMap == 1
           then ulFileSize (f (slotAt items i)).m_pwfdFiles else 0) := by
  rw [setSlot_eq_set f h0 h, slotAt_eq_getElem h0 h]
  unfold liveSizeSum
  exact sum_map_set _ items i.toNat h _

theorem liveSizeSum_setSlot_same (items : List ItemSlot) (i : Int) (f : ItemSlot → ItemSlot)
    (hmap : ∀ it, (f it).m_pItemMap = it.m_pItemMap)
    (hsize : ∀ it, ulFileSize (f it).m_pwfdFiles = ulFileSize it.m_pwfdFiles) :
    liveSizeSum (setSlot items i f) = liveSizeSum items := by
  by_cases hb : 0 ≤ i ∧ i.toNat < items.length
  · have := liveSizeSum_setSlot f hb.1 hb.2
    rw [hmap, hsize] at this
    omega
  · rw [setSlot_of_not_inbounds f hb]

theorem LocateFileItemInternalIndex_live (s : CShellBrowser) (pidl : Pidl)
    (h : LocateFileItemInternalIndex s pidl ≠ -1) :
    isLive s (LocateFileItemInternalIndex s pidl) = true ∧
    s.m_pidlDirectory ++
      (slotAt s.items (LocateFileItemInternalIndex s pidl)).m_pExtraItemInfo.pridl = pidl := by
  unfold LocateFileItemInternalIndex at h ⊢
  split
  · rename_i hlt
    have hp := List.findIdx_getElem (w := hlt)
    rw [slotAt_eq_getElem (by omega) (by simpa using hlt)]
    simp only [Int.toNat_ofNat, isLive]
    simp only [Bool.and_eq_true, beq_iff_eq] at hp
    rw [slotAt_eq_getElem (by omega) (by simpa using hlt)]
    simp only [Int.toNat_ofNat]
    exact ⟨by simpa using hp.1, hp.2⟩
  · rename_i hlt
    rw [if_neg hlt] at h
    exact absurd rfl h

theorem RemoveItem_int_fields (s : CShellBrowser) (i : Int) (hi : i ≠ -1) :
    (RemoveItem_int s i).items = setSlot s.items i (fun it => { it with m_pItemMap := 0 }) ∧
    (RemoveItem_int s i).m_ulTotalDirSize
      = sub64 s.m_ulTotalDirSize (ulFileSize (slotAt s.items i).m_pwfdFiles) ∧
    (RemoveItem_int s i).m_nTotalItems = s.m_nTotalItems - 1 ∧
    (RemoveItem_int s i).m_ulFileSelectionSize
      = (if ListView_FindItem s.m_hListView i != -1 then
          (OnListViewItemDeleted s (ListView_FindItem s.m_hListView i)).m_ulFileSelectionSize
         else s.m_ulFileSelectionSize) ∧
    (RemoveItem_int s i).m_AwaitingAddList = s.m_AwaitingAddList ∧
    (RemoveItem_int s i).m_bApplyFilter = s.m_bApplyFilter ∧
    (RemoveItem_int s i).m_hListView
      = (if ListView_FindItem s.m_hListView i != -1 then
          LVM_DELETEITEM s.m_hListView (ListView_FindItem s.m_hListView i)
         else s.m_hListView) := by
  unfold RemoveItem_int
  rw [if_neg (by simpa using hi)]
  refine ⟨rfl, rfl, rfl, ?_, rfl, rfl, ?_⟩
  · show (if _ then _ else _ : CShellBrowser).m_ulFileSelectionSize = _
    split <;> rfl
  · show (if _ then _ else _ : CShellBrowser).m_hListView = _
    split <;> rfl

theorem RemoveItem_int_total (s : CShellBrowser) (i : Int) (hinv : TotalDirSizeInv s)
    (hlive : isLive s i = true) : TotalDirSizeInv (RemoveItem_int s i) := by
  have hl : (slotAt s.items i).m_pItemMap = 1 := by simpa [isLive] using hlive
  obtain ⟨h0, hlt⟩ := slotAt_of_live hl
  have hf := RemoveItem_int_fields s i (by omega)
  have hsum := liveSizeSum_setSlot (fun it => { it with m_pItemMap := 0 }) h0 hlt
  simp only [hl, beq_self_eq_true, if_true] at hsum
  simp only [show ((0:Nat) == 1) = false from rfl] at hsum
  unfold TotalDirSizeInv at hinv ⊢
  rw [hf.1, hf.2.1, hinv]
  unfold sub64
  have h64 : (2:Nat) ^ 64 = 18446744073709551616 := by norm_num
  rw [h64]
  simp only [Bool.false_eq_true, if_false] at hsum
  omega

theorem RemoveItem_total (s : CShellBrowser) (pidl : Pidl) (hinv : TotalDirSizeInv s) :
    TotalDirSizeInv (RemoveItem s pidl) := by
  unfold RemoveItem
  split
  · rename_i h
    exact RemoveItem_int_total s _ hinv
      (LocateFileItemInternalIndex_live s pidl (by simpa using h)).1
  · exact hinv

theorem AwaitingAdd_find_mem (items : List ItemSlot) (FileName : String)
    (l : List AwaitingAdd_t) (h : AwaitingAdd_find items FileName l ≠ -1) :
    ∃ a ∈ l, a.iItemInternal = AwaitingAdd_find items FileName l := by
  induction l with
  | nil => exact absurd rfl h
  | cons a t ih =>
    unfold AwaitingAdd_find at h ⊢
    split
    · exact ⟨a, List.mem_cons_self _ _, rfl⟩
    · rename_i hne
      rw [if_neg hne] at h
      obtain ⟨b, hb, hbe⟩ := ih h
      exact ⟨b, List.mem_cons_of_mem _ hb, hbe⟩

theorem ListView_GetItem_mem (lv : List LVITEM) (iItem : Int) (r : LVITEM)
    (h : ListView_GetItem lv iItem = some r) : r ∈ lv := by
  unfold ListView_GetItem at h
  split at h
  · exact absurd h (by simp)
  · exact List.getElem?_mem h

theorem ModifyItem_locate_live (s : CShellBrowser) (FileName : String) (hb : BoundToLive s)
    (h : ModifyItem_locate s FileName ≠ -1) :
    isLive s (ModifyItem_locate s FileName) = true := by
  unfold ModifyItem_locate at h ⊢
  split
  · rename_i hrow
    rw [if_pos hrow] at h
    obtain ⟨a, ha, hae⟩ := AwaitingAdd_find_mem s.items FileName s.m_AwaitingAddList h
    rw [← hae]
    exact hb.2 a ha
  · rename_i hrow
    rw [if_neg hrow] at h
    cases hget : ListView_GetItem s.m_hListView (LocateFileItemIndex s FileName) with
    | none => rw [hget] at h; exact absurd rfl h
    | some r => exact hb.1 r (ListView_GetItem_mem _ _ r hget)

theorem ModifyItem_total (sh : Shell) (s : CShellBrowser) (FileName : String)
    (hinv : TotalDirSizeInv s) (hb : BoundToLive s) :
    TotalDirSizeInv (ModifyItem sh s FileName) := by
  by_cases hfound : ModifyItem_locate s FileName = -1
  · unfold TotalDirSizeInv at hinv ⊢
    rw [ModifyItem_of_not_located sh s FileName hfound, ModifyItem_overlay_items,
      (ModifyItem_overlay_frame sh s FileName).1]
    exact hinv
  · have hlive := ModifyItem_locate_live s FileName hb hfound
    have hl : (slotAt s.items (ModifyItem_locate s FileName)).m_pItemMap = 1 := by
      simpa [isLive] using hlive
    obtain ⟨h0, hlt⟩ := slotAt_of_live hl
    have h64 : (2:Nat) ^ 64 = 18446744073709551616 := by norm_num
    unfold TotalDirSizeInv at hinv ⊢
    cases hprobe : sh.FindFirstFile (PathAppend s.m_CurDir FileName) with
    | none =>
      obtain ⟨hi, ht⟩ := ModifyItem_of_probe_failure sh s FileName hfound hprobe
      have hsum : liveSizeSum (ModifyItem sh s FileName).items
          + ulFileSize (slotAt s.items (ModifyItem_locate s FileName)).m_pwfdFiles
          = liveSizeSum s.items := by
        rw [hi]
        have := liveSizeSum_setSlot (fun it => { it with m_pwfdFiles :=
          { it.m_pwfdFiles with nFileSizeLow := 0, nFileSizeHigh := 0 } }) h0 hlt
        simpa [hl, ulFileSize, QuadPart] using this
      rw [ht, hinv]
      unfold sub64
      rw [h64]
      omega
    | some wfd =>
      obtain ⟨hi, ht⟩ := ModifyItem_of_probe_success sh s FileName wfd hfound hprobe
      have hsum : liveSizeSum (ModifyItem sh s FileName).items
          + ulFileSize (slotAt s.items (ModifyItem_locate s FileName)).m_pwfdFiles
          = liveSizeSum s.items + ulFileSize wfd := by
        rw [hi]
        have := liveSizeSum_setSlot (fun it => { it with m_pwfdFiles := wfd }) h0 hlt
        simpa [hl] using this
      rw [ht, hinv]
      unfold sub64 add64
      rw [h64]
      omega

theorem OnListViewItemDeleted_frame (s : CShellBrowser) (iItem : Int) :
    (OnListViewItemDeleted s iItem).items = s.items ∧
    (OnListViewItemDeleted s iItem).m_ulTotalDirSize = s.m_ulTotalDirSize ∧
    (OnListViewItemDeleted s iItem).m_hListView = s.m_hListView := by
  unfold OnListViewItemDeleted
  split
  · split <;> exact ⟨rfl, rfl, rfl⟩
  · exact ⟨rfl, rfl, rfl⟩

theorem ListView_DeleteItem_frame (s : CShellBrowser) (iItem : Int) :
    (ListView_DeleteItem s iItem).items = s.items ∧
    (ListView_DeleteItem s iItem).m_ulTotalDirSize = s.m_ulTotalDirSize ∧
    (ListView_DeleteItem s iItem).m_hListView = LVM_DELETEITEM s.m_hListView iItem :=
  ⟨(OnListViewItemDeleted_frame s iItem).1, (OnListViewItemDeleted_frame s iItem).2.1, rfl⟩

theorem RenameItem_refresh_frame (sh : Shell) (s : CShellBrowser) (pidlNew : Pidl)
    (i : Int) :
    (RenameItem_refresh sh s pidlNew i).items = s.items ∧
    (RenameItem_refresh sh s pidlNew i).m_ulTotalDirSize = s.m_ulTotalDirSize := by
  unfold RenameItem_refresh
  split
  · split
    · simp only [RemoveFilteredItem]
      split
      · exact ⟨(ListView_DeleteItem_frame _ _).1, (ListView_DeleteItem_frame _ _).2.1⟩
      · exact ⟨rfl, rfl⟩
    · exact ⟨rfl, rfl⟩
  · exact ⟨rfl, rfl⟩

theorem RenameItem_total (sh : Shell) (s : CShellBrowser) (pidlOld pidlNew : Pidl)
    (hinv : TotalDirSizeInv s) : TotalDirSizeInv (RenameItem sh s pidlOld pidlNew) := by
  unfold RenameItem
  split
  · exact hinv
  · split
    · split
      · unfold TotalDirSizeInv at hinv ⊢
        rw [(RenameItem_refresh_frame sh _ pidlNew _).1,
          (RenameItem_refresh_frame sh _ pidlNew _).2]
        simp only
        rw [liveSizeSum_setSlot_same]
        · exact hinv
        · intro it; rfl
        · intro it; rfl
      · exact hinv
    · exact hinv

/-- Claim C3, amended.  From a state in which `m_ulTotalDirSize` is the 64-bit sum of the
stored sizes of the live slots, the same holds again after `RemoveItem` on any identifier,
after `RemoveItem` on the internal index of a live item, and after `RenameItem` on any pair
of identifiers; it holds again after `ModifyItem` on any name, whatever the probe answers,
when every view row and every awaiting-add entry is bound to a live slot. -/
theorem totalDirSize_invariant (sh : Shell) (s : CShellBrowser) (hinv : TotalDirSizeInv s) :
    (∀ pidl, TotalDirSizeInv (RemoveItem s pidl)) ∧
    (∀ i, isLive s i = true → TotalDirSizeInv (RemoveItem_int s i)) ∧
    (BoundToLive s → ∀ FileName, TotalDirSizeInv (ModifyItem sh s FileName)) ∧
    (∀ pidlOld pidlNew, TotalDirSizeInv (RenameItem sh s pidlOld pidlNew)) :=
  ⟨fun pidl => RemoveItem_total s pidl hinv,
   fun i hlive => RemoveItem_int_total s i hinv hlive,
   fun hb FileName => ModifyItem_total sh s FileName hinv hb,
   fun pidlOld pidlNew => RenameItem_total sh s pidlOld pidlNew hinv⟩

theorem totalDirSize_invariant_witness :
    TotalDirSizeInv (RemoveItem sampleBrowser [1, 2, 10]) ∧
    TotalDirSizeInv (RemoveItem_int sampleBrowser 1) ∧
    TotalDirSizeInv (ModifyItem (probingShell (sampleRecord "a.txt" 4096)) sampleBrowser "a.txt") ∧
    TotalDirSizeInv (RenameItem (probingShell (sampleRecord "a.txt" 4096)) sampleBrowser
      [1, 2, 10] [1, 2, 12]) :=
  ⟨(totalDirSize_invariant silentShell sampleBrowser (by decide)).1 [1, 2, 10],
   (totalDirSize_invariant silentShell sampleBrowser (by decide)).2.1 1 (by decide),
   (totalDirSize_invariant (probingShell (sampleRecord "a.txt" 4096)) sampleBrowser
      (by decide)).2.2.1 (by decide) "a.txt",
   (totalDirSize_invariant (probingShell (sampleRecord "a.txt" 4096)) sampleBrowser
      (by decide)).2.2.2 [1, 2, 10] [1, 2, 12]⟩

/-- Claim C3 as stated fails.  The item `a.txt` of size 5 is live at internal index 0 and
awaits insertion; the directory total is the sum of the live sizes and every awaiting-add
entry is bound to a live slot.  `RemoveItem` on the index 0 (or on the identifier of the
item) frees the slot and leaves its awaiting-add entry in place; in the state so reached the
total is again the sum of the live sizes.  `ModifyItem` on `a.txt` in that state resolves
the name through the awaiting-add list to the freed slot and takes its stored size off the
total, which is then `2 ^ 64 - 5` while no slot is live. -/
theorem totalDirSize_invariant_counterexample :
    TotalDirSizeInv awaitingBrowser ∧ BoundToLive awaitingBrowser ∧
    isLive awaitingBrowser 0 = true ∧
    RemoveItem awaitingBrowser [1, 2, 10] = RemoveItem_int awaitingBrowser 0 ∧
    TotalDirSizeInv (RemoveItem_int awaitingBrowser 0) ∧
    (ModifyItem silentShell (RemoveItem_int awaitingBrowser 0) "a.txt").m_ulTotalDirSize
      = 2 ^ 64 - 5 ∧
    liveSizeSum (ModifyItem silentShell (RemoveItem_int awaitingBrowser 0) "a.txt").items
      = 0 ∧
    ¬ TotalDirSizeInv (ModifyItem silentShell (RemoveItem_int awaitingBrowser 0) "a.txt") := by
  decide

/-! ## Pending additions -/

theorem ModifyItem_update_frame (sh : Shell) (s : CShellBrowser) (FileName : String)
    (iItem i : Int) :
    (ModifyItem_update sh s FileName iItem i).m_FilesAdded = s.m_FilesAdded ∧
    (ModifyItem_update sh s FileName iItem i).m_nTotalItems = s.m_nTotalItems ∧
    (ModifyItem_update sh s FileName iItem i).m_AwaitingAddList = s.m_AwaitingAddList ∧
    (ModifyItem_update sh s FileName iItem i).m_hOwner = s.m_hOwner := by
  unfold ModifyItem_update
  split <;> exact ⟨rfl, rfl, rfl, rfl⟩

theorem ModifyItem_frame (sh : Shell) (s : CShellBrowser) (FileName : String) :
    (ModifyItem sh s FileName).m_FilesAdded = s.m_FilesAdded ∧
    (ModifyItem sh s FileName).m_nTotalItems = s.m_nTotalItems ∧
    (ModifyItem sh s FileName).m_AwaitingAddList = s.m_AwaitingAddList ∧
    (ModifyItem sh s FileName).m_hOwner = s.m_hOwner := by
  have hov := ModifyItem_overlay_frame sh s FileName
  unfold ModifyItem
  split
  · have hu := ModifyItem_update_frame sh (ModifyItem_overlay sh s FileName) FileName
      (LocateFileItemIndex s FileName) (ModifyItem_locate s FileName)
    exact ⟨hu.1.trans hov.2.2.2.2.1, hu.2.1.trans hov.2.2.1, hu.2.2.1.trans hov.2.2.2.2.2.1,
      hu.2.2.2.trans hov.2.2.2.2.2.2⟩
  · exact ⟨hov.2.2.2.2.1, hov.2.2.1, hov.2.2.2.2.2.1, hov.2.2.2.2.2.2⟩

theorem ModifyItem_isLive (sh : Shell) (s : CShellBrowser) (FileName : String) (j : Int) :
    isLive (ModifyItem sh s FileName) j = isLive s j := by
  unfold isLive
  by_cases hfound : ModifyItem_locate s FileName = -1
  · rw [ModifyItem_of_not_located sh s FileName hfound, ModifyItem_overlay_items]
  · cases hprobe : sh.FindFirstFile (PathAppend s.m_CurDir FileName) with
    | none =>
      rw [(ModifyItem_of_probe_failure sh s FileName hfound hprobe).1, slotAt_setSlot]
      split
      · rename_i h; rw [h.1]
      · rfl
    | some wfd =>
      rw [(ModifyItem_of_probe_success sh s FileName wfd hfound hprobe).1, slotAt_setSlot]
      split
      · rename_i h; rw [h.1]
      · rfl

theorem AddItem_of_resolution_failure (sh : Shell) (s : CShellBrowser) (szFileName : String)
    (h : sh.GetIdlFromParsingName (PathAppend s.m_CurDir szFileName) = none) :
    AddItem sh s szFileName = { s with m_FilesAdded := s.m_FilesAdded ++ [⟨szFileName⟩] } := by
  unfold AddItem AddItem_bFileAdded
  rw [h]

/-- Claim C5, amended.  When the name `n` matches no view row and `AddItem(n)` fails
filesystem resolution, `n` is appended to the pending queue `m_FilesAdded`; a subsequent
`ModifyItem(n)`, whatever its probe answers, leaves that queue with the entry for `n` still
in it and makes no slot live, and `m_nTotalItems` keeps its value from before the Add.  When
`n` matches no awaiting-add entry either, the Modify changes nothing at all, so the item
table and `m_ulTotalDirSize` are as they were before the Add. -/
theorem AddItem_failure_then_ModifyItem (sh1 sh2 : Shell) (s : CShellBrowser) (n : String)
    (hrow : LocateFileItemIndex s n = -1)
    (hfail : sh1.GetIdlFromParsingName (PathAppend s.m_CurDir n) = none) :
    (AddItem sh1 s n).m_FilesAdded = s.m_FilesAdded ++ [⟨n⟩] ∧
    (ModifyItem sh2 (AddItem sh1 s n) n).m_FilesAdded = s.m_FilesAdded ++ [⟨n⟩] ∧
    (∀ i, isLive (ModifyItem sh2 (AddItem sh1 s n) n) i = isLive s i) ∧
    (ModifyItem sh2 (AddItem sh1 s n) n).m_nTotalItems = s.m_nTotalItems ∧
    (AwaitingAdd_find s.items n s.m_AwaitingAddList = -1 →
      ModifyItem sh2 (AddItem sh1 s n) n = AddItem sh1 s n ∧
      (ModifyItem sh2 (AddItem sh1 s n) n).items = s.items ∧
      (ModifyItem sh2 (AddItem sh1 s n) n).m_ulTotalDirSize = s.m_ulTotalDirSize) := by
  have hadd := AddItem_of_resolution_failure sh1 s n hfail
  have hfr := ModifyItem_frame sh2 (AddItem sh1 s n) n
  refine ⟨by rw [hadd], ?_, ?_, ?_, ?_⟩
  · rw [hfr.1, hadd]
  · intro i
    rw [ModifyItem_isLive, hadd]
    rfl
  · rw [hfr.2.1, hadd]
  · intro hwait
    have hno : ModifyItem sh2 (AddItem sh1 s n) n = AddItem sh1 s n := by
      apply ModifyItem_of_no_match
      · rw [hadd]; exact hrow
      · rw [hadd]; exact hwait
    rw [hno, hadd]
    exact ⟨rfl, rfl, rfl⟩

theorem AddItem_failure_then_ModifyItem_witness :
    (AddItem silentShell sampleBrowser "tmp123").m_FilesAdded = [⟨"tmp123"⟩] ∧
    (ModifyItem (probingShell (sampleRecord "tmp123" 4096))
      (AddItem silentShell sampleBrowser "tmp123") "tmp123").m_FilesAdded = [⟨"tmp123"⟩] ∧
    ModifyItem (probingShell (sampleRecord "tmp123" 4096))
      (AddItem silentShell sampleBrowser "tmp123") "tmp123"
      = AddItem silentShell sampleBrowser "tmp123" :=
  ⟨(AddItem_failure_then_ModifyItem silentShell (probingShell (sampleRecord "tmp123" 4096))
      sampleBrowser "tmp123" (by decide) rfl).1,
   (AddItem_failure_then_ModifyItem silentShell (probingShell (sampleRecord "tmp123" 4096))
      sampleBrowser "tmp123" (by decide) rfl).2.1,
   ((AddItem_failure_then_ModifyItem silentShell (probingShell (sampleRecord "tmp123" 4096))
      sampleBrowser "tmp123" (by decide) rfl).2.2.2.2 (by decide)).1⟩

/-- Claim C5 as stated fails at its own example.  `tmp123` matches no view row, `AddItem`
fails to resolve it and queues it, and `ModifyItem` then finds the probe succeeding with a
record of size 4096; afterwards the entry for `tmp123` is still in the pending queue, no
live item is named `tmp123`, and `m_ulTotalDirSize` is the 12 it was before the Add. -/
theorem AddItem_failure_then_ModifyItem_counterexample :
    LocateFileItemIndex sampleBrowser "tmp123" = -1 ∧
    silentShell.GetIdlFromParsingName (PathAppend sampleBrowser.m_CurDir "tmp123") = none ∧
    (probingShell (sampleRecord "tmp123" 4096)).FindFirstFile
      (PathAppend sampleBrowser.m_CurDir "tmp123") = some (sampleRecord "tmp123" 4096) ∧
    ulFileSize (sampleRecord "tmp123" 4096) = 4096 ∧
    (ModifyItem (probingShell (sampleRecord "tmp123" 4096))
      (AddItem silentShell sampleBrowser "tmp123") "tmp123").m_FilesAdded = [⟨"tmp123"⟩] ∧
    (¬ ∃ it ∈ (ModifyItem (probingShell (sampleRecord "tmp123" 4096))
        (AddItem silentShell sampleBrowser "tmp123") "tmp123").items,
      it.m_pItemMap = 1 ∧ it.m_pwfdFiles.cFileName = "tmp123") ∧
    sampleBrowser.m_ulTotalDirSize = 12 ∧
    (ModifyItem (probingShell (sampleRecord "tmp123" 4096))
      (AddItem silentShell sampleBrowser "tmp123") "tmp123").m_ulTotalDirSize = 12 := by
  decide

theorem SetItemInformation_FilesAdded (sh : Shell) (s : CShellBrowser)
    (pidlDirectory pidlRelative : Pidl) (szDisplayName : String) :
    (SetItemInformation sh s pidlDirectory pidlRelative szDisplayName).1.m_FilesAdded
      = s.m_FilesAdded := by
  unfold SetItemInformation
  split <;> rfl

theorem AddItem_insert_FilesAdded (sh : Shell) (s : CShellBrowser) (pidlFull : Pidl)
    (szDisplayName : String) :
    (AddItem_insert sh s pidlFull szDisplayName).m_FilesAdded = s.m_FilesAdded := by
  unfold AddItem_insert
  simp only
  split
  · simp only [InsertAwaitingItems, AddItemInternal]
    exact SetItemInformation_FilesAdded sh s _ _ _
  · simp only [InsertAwaitingItems, AddItemInternal_pidl, AddItemInternal]
    exact SetItemInformation_FilesAdded sh s _ _ _

theorem AddItem_bFileAdded_eq_none (sh : Shell) (s : CShellBrowser) (szFileName : String) :
    AddItem_bFileAdded sh s szFileName = none ↔ AddItem_lookup_fails sh s szFileName := by
  unfold AddItem_bFileAdded AddItem_lookup_fails
  cases hres : sh.GetIdlFromParsingName (PathAppend s.m_CurDir szFileName) with
  | none => simp
  | some pidlFull =>
    cases hbind : sh.SHBindToParent pidlFull with
    | false => simp [hbind]
    | true =>
      cases hname : sh.GetDisplayNameOf pidlFull
          (if s.m_bVirtualFolder then SHGDN_INFOLDER
           else SHGDN_INFOLDER ||| SHGDN_FORPARSING) with
      | none => simp [hbind, hname]
      | some d => simp [hbind, hname]

theorem AddItem_bFileAdded_FilesAdded (sh : Shell) (s s1 : CShellBrowser)
    (szFileName : String) (h : AddItem_bFileAdded sh s szFileName = some s1) :
    s1.m_FilesAdded = s.m_FilesAdded := by
  unfold AddItem_bFileAdded at h
  split at h
  · split at h
    · split at h
      · rw [← Option.some.inj h]
        exact AddItem_insert_FilesAdded sh s _ _
      · exact absurd h (by simp)
    · exact absurd h (by simp)
  · exact absurd h (by simp)

/-- Claim C9.  `AddItem(n)` appends exactly one entry carrying `n` to the pending queue
`m_FilesAdded` if and only if the item was not added, that is, if and only if the
name-to-identifier resolution, the binding to the parent folder or the display-name lookup
failed.  In that case the item table, `m_nTotalItems`, both totals and the view rows are
unchanged; when the item is added the pending queue is unchanged. -/
theorem AddItem_pending (sh : Shell) (s : CShellBrowser) (n : String) :
    ((AddItem sh s n).m_FilesAdded = s.m_FilesAdded ++ [⟨n⟩]
      ↔ AddItem_lookup_fails sh s n) ∧
    (AddItem_lookup_fails sh s n →
      (AddItem sh s n).items = s.items ∧
      (AddItem sh s n).m_nTotalItems = s.m_nTotalItems ∧
      (AddItem sh s n).m_ulTotalDirSize = s.m_ulTotalDirSize ∧
      (AddItem sh s n).m_ulFileSelectionSize = s.m_ulFileSelectionSize ∧
      (AddItem sh s n).m_hListView = s.m_hListView) ∧
    (¬ AddItem_lookup_fails sh s n → (AddItem sh s n).m_FilesAdded = s.m_FilesAdded) := by
  rw [← AddItem_bFileAdded_eq_none]
  cases hadded : AddItem_bFileAdded sh s n with
  | none =>
    have hA : AddItem sh s n = { s with m_FilesAdded := s.m_FilesAdded ++ [⟨n⟩] } := by
      unfold AddItem
      rw [hadded]
    rw [hA]
    simp
  | some s1 =>
    have hA : AddItem sh s n = s1 := by
      unfold AddItem
      rw [hadded]
    have hq := AddItem_bFileAdded_FilesAdded sh s s1 n hadded
    rw [hA, hq]
    simp

theorem AddItem_pending_witness :
    (AddItem silentShell sampleBrowser "c.txt").m_FilesAdded = [⟨"c.txt"⟩] ∧
    (AddItem silentShell sampleBrowser "c.txt").items = sampleBrowser.items ∧
    (AddItem silentShell sampleBrowser "c.txt").m_hListView = sampleBrowser.m_hListView ∧
    (AddItem resolvingShell sampleBrowser "c.txt").m_FilesAdded = [] :=
  ⟨(AddItem_pending silentShell sampleBrowser "c.txt").1.2 (Or.inl rfl),
   ((AddItem_pending silentShell sampleBrowser "c.txt").2.1 (Or.inl rfl)).1,
   ((AddItem_pending silentShell sampleBrowser "c.txt").2.1 (Or.inl rfl)).2.2.2.2,
   (AddItem_pending resolvingShell sampleBrowser "c.txt").2.2
      (by simp [AddItem_lookup_fails, resolvingShell, silentShell, sampleBrowser, PathAppend])⟩

/-! ## The folder-empty message -/

theorem ListView_FindItem_of_mem (lv : List LVITEM) (i : Int)
    (h : ∃ r ∈ lv, r.lParam = i) :
    ∃ k : Nat, ∃ hk : k < lv.length,
      ListView_FindItem lv i = (k : Int) ∧ lv[k].lParam = i := by
  have hlt : lv.findIdx (fun r => r.lParam == i) < lv.length := by
    apply List.findIdx_lt_length_of_exists
    obtain ⟨r, hr, hri⟩ := h
    exact ⟨r, hr, by simpa using hri⟩
  refine ⟨lv.findIdx (fun r => r.lParam == i), hlt, ?_, ?_⟩
  · unfold ListView_FindItem
    rw [if_pos hlt]
  · have := List.findIdx_getElem (w := hlt)
    simpa using this

theorem RemoveItem_int_hOwner (s : CShellBrowser) (i : Int) (hi : i ≠ -1) :
    (RemoveItem_int s i).m_hOwner
      = s.m_hOwner ++
        (if (RemoveItem_int s i).m_hListView.length = 0 ∧ s.m_bApplyFilter = false
         then [⟨s.m_ID, true⟩] else []) := by
  have h : (RemoveItem_int s i).m_hOwner
      = if (ListView_GetItemCount (RemoveItem_int s i).m_hListView == 0
            && !s.m_bApplyFilter) = true
        then s.m_hOwner ++ [⟨s.m_ID, true⟩] else s.m_hOwner := by
    unfold RemoveItem_int
    rw [if_neg (by simpa using hi)]
  rw [h]
  unfold ListView_GetItemCount
  by_cases hc : (RemoveItem_int s i).m_hListView.length = 0 ∧ s.m_bApplyFilter = false
  · rw [if_pos hc, if_pos (by simp [hc.1, hc.2])]
  · rw [if_neg hc, if_neg (by simpa using hc)]
    simp

theorem RemoveItem_int_of_shown (s : CShellBrowser) (i : Int) (hv : ViewShowsLive s)
    (hlive : isLive s i = true) :
    ViewShowsLive (RemoveItem_int s i) ∧
    s.m_nTotalItems ≠ 0 ∧
    ((RemoveItem_int s i).m_hListView.length = 0 ↔ (RemoveItem_int s i).m_nTotalItems = 0) := by
  have hl : (slotAt s.items i).m_pItemMap = 1 := by simpa [isLive] using hlive
  obtain ⟨h0, hlt⟩ := slotAt_of_live hl
  have hf := RemoveItem_int_fields s i (by omega)
  obtain ⟨k, hk, hfind, hki⟩ := ListView_FindItem_of_mem s.m_hListView i (hv.1 i hlive)
  have hrows : (RemoveItem_int s i).m_hListView = s.m_hListView.eraseIdx k := by
    rw [hf.2.2.2.2.2.2, hfind, if_pos (by simp)]
    unfold LVM_DELETEITEM
    rw [if_neg (by omega), Int.toNat_ofNat]
  have hlen : (RemoveItem_int s i).m_hListView.length = s.m_hListView.length - 1 := by
    rw [hrows, List.length_eraseIdx, if_pos hk]
  have hcount : (RemoveItem_int s i).m_nTotalItems = s.m_hListView.length - 1 := by
    rw [hf.2.2.1, hv.2]
  refine ⟨⟨?_, ?_⟩, ?_, ?_⟩
  · intro j hj
    have hjs : (slotAt (RemoveItem_int s i).items j).m_pItemMap = 1 := by
      simpa [isLive] using hj
    rw [hf.1, slotAt_setSlot] at hjs
    split at hjs
    · exact absurd hjs (by simp)
    · rename_i hne
      have hji : j ≠ i := fun h => hne ⟨h, h0, hlt⟩
      obtain ⟨r, hr, hrj⟩ := hv.1 j (by simpa [isLive] using hjs)
      refine ⟨r, ?_, hrj⟩
      rw [hrows, List.mem_eraseIdx_iff_getElem]
      obtain ⟨m, hm, hmr⟩ := List.getElem_of_mem hr
      refine ⟨m, hm, ?_, hmr⟩
      intro hmk
      subst hmk
      rw [hmr, hrj] at hki
      exact hji hki
  · rw [hcount, hlen]
    omega
  · rw [hv.2]
    omega
  · rw [hcount, hlen]
    omega

theorem RemoveItem_int_signal (s : CShellBrowser) (i : Int) (hv : ViewShowsLive s)
    (hnf : s.m_bApplyFilter = false) (hlive : isLive s i = true) :
    ViewShowsLive (RemoveItem_int s i) ∧
    (RemoveItem_int s i).m_bApplyFilter = false ∧
    (RemoveItem_int s i).m_hOwner
      = s.m_hOwner ++
        (if s.m_nTotalItems ≠ 0 ∧ (RemoveItem_int s i).m_nTotalItems = 0
         then [⟨s.m_ID, true⟩] else []) := by
  have hl : (slotAt s.items i).m_pItemMap = 1 := by simpa [isLive] using hlive
  obtain ⟨h0, _⟩ := slotAt_of_live hl
  obtain ⟨hv1, hnz, hiff⟩ := RemoveItem_int_of_shown s i hv hlive
  refine ⟨hv1, ?_, ?_⟩
  · rw [(RemoveItem_int_fields s i (by omega)).2.2.2.2.2.1, hnf]
  · rw [RemoveItem_int_hOwner s i (by omega)]
    congr 1
    by_cases hz : (RemoveItem_int s i).m_nTotalItems = 0
    · rw [if_pos ⟨hiff.2 hz, hnf⟩, if_pos ⟨hnz, hz⟩]
    · rw [if_neg (fun h => hz (hiff.1 h.1)), if_neg (fun h => hz h.2)]

theorem RemoveOp_run_signal (s : CShellBrowser) (op : RemoveOp) (hv : ViewShowsLive s)
    (hnf : s.m_bApplyFilter = false) (hop : op.onLive s = true) :
    ViewShowsLive (op.run s) ∧ (op.run s).m_bApplyFilter = false ∧
    (op.run s).m_ID = s.m_ID ∧ SignalsOnTransition s op := by
  have hid : ∀ i, (RemoveItem_int s i).m_ID = s.m_ID := by
    intro i
    unfold RemoveItem_int
    split <;> rfl
  cases op with
  | byIndex i =>
    obtain ⟨h1, h2, h3⟩ := RemoveItem_int_signal s i hv hnf hop
    exact ⟨h1, h2, hid i, h3⟩
  | byPidl pidl =>
    unfold SignalsOnTransition
    simp only [RemoveOp.run]
    unfold RemoveItem
    split
    · rename_i h
      obtain ⟨h1, h2, h3⟩ := RemoveItem_int_signal s _ hv hnf
        (LocateFileItemInternalIndex_live s pidl (by simpa using h)).1
      exact ⟨h1, h2, hid _, h3⟩
    · refine ⟨hv, hnf, rfl, ?_⟩
      rw [if_neg (fun h => h.1 h.2)]
      simp

theorem RemoveOp_run_filter (s : CShellBrowser) (op : RemoveOp)
    (hf : s.m_bApplyFilter = true) : (op.run s).m_hOwner = s.m_hOwner := by
  have hint : ∀ i, (RemoveItem_int s i).m_hOwner = s.m_hOwner := by
    intro i
    unfold RemoveItem_int
    split
    · rfl
    · simp [hf]
  cases op with
  | byIndex i => exact hint i
  | byPidl pidl =>
    simp only [RemoveOp.run]
    unfold RemoveItem
    split
    · exact hint _
    · rfl

theorem removes_signal (ops : List RemoveOp) :
    ∀ s : CShellBrowser, ViewShowsLive s → s.m_bApplyFilter = false →
      removesOnLive s ops = true → AllSignalOnTransition s ops := by
  induction ops with
  | nil => intro s _ _ _; trivial
  | cons op rest ih =>
    intro s hv hnf hops
    simp only [removesOnLive, Bool.and_eq_true] at hops
    obtain ⟨h1, h2, _, h4⟩ := RemoveOp_run_signal s op hv hnf hops.1
    exact ⟨h4, ih (op.run s) h1 h2 hops.2⟩

theorem sampleBrowser_ViewShowsLive : ViewShowsLive sampleBrowser := by
  refine ⟨?_, by decide⟩
  intro i hlive
  have hl : (slotAt sampleBrowser.items i).m_pItemMap = 1 := by simpa [isLive] using hlive
  obtain ⟨h0, hlt⟩ := slotAt_of_live hl
  have hlen : sampleBrowser.items.length = 2 := rfl
  have hi : i = 0 ∨ i = 1 := by omega
  rcases hi with rfl | rfl
  · exact ⟨sampleRow 0 true "a.txt", by simp [sampleBrowser], rfl⟩
  · exact ⟨sampleRow 1 false "b.txt", by simp [sampleBrowser], rfl⟩

/-- Claim C7, amended.  A `RemoveItem` sends the folder-empty message exactly when the view
holds no row once the row of the item has been deleted and no filter is active, and then it
sends it once.  For every sequence of `RemoveItem` operations (on identifiers, or on internal
indices of live items) with no filter active, started in a state in which every live item is
shown by a view row and `m_nTotalItems` is the number of rows, each removal sends the message
exactly when it takes `m_nTotalItems` from nonzero to zero, once, and no other removal sends
it.  It is never sent when a filter is active. -/
theorem folderEmpty_signal (s : CShellBrowser) :
    (∀ i, i ≠ -1 →
      (RemoveItem_int s i).m_hOwner
        = s.m_hOwner ++
          (if (RemoveItem_int s i).m_hListView.length = 0 ∧ s.m_bApplyFilter = false
           then [⟨s.m_ID, true⟩] else [])) ∧
    (∀ ops, s.m_bApplyFilter = false → ViewShowsLive s → removesOnLive s ops = true →
      AllSignalOnTransition s ops) ∧
    (∀ op : RemoveOp, s.m_bApplyFilter = true → (op.run s).m_hOwner = s.m_hOwner) :=
  ⟨fun i hi => RemoveItem_int_hOwner s i hi,
   fun ops hnf hv hops => removes_signal ops s hv hnf hops,
   fun op hf => RemoveOp_run_filter s op hf⟩

theorem folderEmpty_signal_witness :
    (RemoveItem_int sampleBrowser 0).m_hOwner
      = sampleBrowser.m_hOwner ++
        (if (RemoveItem_int sampleBrowser 0).m_hListView.length = 0 ∧
            sampleBrowser.m_bApplyFilter = false
         then [⟨sampleBrowser.m_ID, true⟩] else []) ∧
    AllSignalOnTransition sampleBrowser
      [RemoveOp.byPidl [1, 2, 10], RemoveOp.byIndex 1, RemoveOp.byPidl [1, 2, 10]] ∧
    (RemoveOp.run { sampleBrowser with m_bApplyFilter := true } (RemoveOp.byIndex 0)).m_hOwner
      = [] :=
  ⟨(folderEmpty_signal sampleBrowser).1 0 (by decide),
   (folderEmpty_signal sampleBrowser).2.1
      [RemoveOp.byPidl [1, 2, 10], RemoveOp.byIndex 1, RemoveOp.byPidl [1, 2, 10]]
      rfl sampleBrowser_ViewShowsLive (by decide),
   (folderEmpty_signal { sampleBrowser with m_bApplyFilter := true }).2.2
      (RemoveOp.byIndex 0) rfl⟩

/-- Claim C7 as stated fails.  No filter is active and two items are live: `a.txt` is shown
by the only row of the view, `b.txt` still awaits insertion, and `m_nTotalItems` is 2.
Removing `a.txt` (by its internal index 0, or by its identifier) empties the view, so the
folder-empty message is sent, although `m_nTotalItems` goes from 2 to 1 and not to zero. -/
theorem folderEmpty_signal_counterexample :
    halfShownBrowser.m_bApplyFilter = false ∧
    isLive halfShownBrowser 0 = true ∧ isLive halfShownBrowser 1 = true ∧
    halfShownBrowser.m_nTotalItems = 2 ∧
    RemoveItem halfShownBrowser [1, 2, 10] = RemoveItem_int halfShownBrowser 0 ∧
    (RemoveItem_int halfShownBrowser 0).m_nTotalItems = 1 ∧
    halfShownBrowser.m_hOwner = [] ∧
    (RemoveItem_int halfShownBrowser 0).m_hOwner = [⟨7, true⟩] ∧
    ¬ SignalsOnTransition halfShownBrowser (RemoveOp.byIndex 0) := by
  decide

/-! ## Evaluations -/

/-- Claim C6, the code at the failing input.  In a virtual folder `AddItem` stores the item
`[1, 2, 12]` at internal index 2 with the in-folder display name `Report`.  After
`RenameItem` to `[1, 2, 13]` and back, both lookups succeeding, the item is still at index
2 with the relative identifier `[12]`, and its stored display name is `Report.txt`.  In the
same browser on a real folder `AddItem` stores `Report.txt` and the two renames restore it. -/
theorem RenameItem_round_trip_virtual :
    LocateFileItemInternalIndex (AddItem namingShell virtualBrowser "report") [1, 2, 12] = 2 ∧
    (slotAt (AddItem namingShell virtualBrowser "report").items 2).m_pExtraItemInfo
      = ⟨[12], "Report"⟩ ∧
    LocateFileItemInternalIndex
      (RenameItem namingShell (AddItem namingShell virtualBrowser "report")
        [1, 2, 12] [1, 2, 13]) [1, 2, 13] = 2 ∧
    (slotAt (RenameItem namingShell
        (RenameItem namingShell (AddItem namingShell virtualBrowser "report")
          [1, 2, 12] [1, 2, 13]) [1, 2, 13] [1, 2, 12]).items 2).m_pExtraItemInfo
      = ⟨[12], "Report.txt"⟩ ∧
    (slotAt (AddItem namingShell sampleBrowser "report").items 2).m_pExtraItemInfo
      = ⟨[12], "Report.txt"⟩ ∧
    (slotAt (RenameItem namingShell
        (RenameItem namingShell (AddItem namingShell sampleBrowser "report")
          [1, 2, 12] [1, 2, 13]) [1, 2, 13] [1, 2, 12]).items 2).m_pExtraItemInfo
      = ⟨[12], "Report.txt"⟩ := by
  decide

/-! ## The selection total -/

theorem getElem?_findIdx {α : Type} (p : α → Bool) (l : List α) :
    l[l.findIdx p]? = l.find? p := by
  induction l with
  | nil => rfl
  | cons a t ih =>
    rw [List.findIdx_cons, List.find?_cons]
    cases hp : p a with
    | true => simp
    | false => simpa using ih

theorem ListView_GetItem_FindItem (lv : List LVITEM) (i : Int) :
    ListView_GetItem lv (ListView_FindItem lv i) = lv.find? (fun r => r.lParam == i) := by
  unfold ListView_GetItem ListView_FindItem
  rw [← getElem?_findIdx]
  by_cases hlt : lv.findIdx (fun r => r.lParam == i) < lv.length
  · rw [if_pos hlt, if_neg (by omega), Int.toNat_ofNat]
  · rw [if_neg hlt, if_pos (by omega), List.getElem?_eq_none (by omega)]

theorem ListView_IsSelected_FindItem (lv : List LVITEM) (i : Int) :
    ListView_IsSelected lv (ListView_FindItem lv i) = selectedOf lv i := by
  unfold ListView_IsSelected selectedOf
  rw [ListView_GetItem_FindItem]

theorem itemSelected_eq (s : CShellBrowser) (i : Int) :
    itemSelected s i = selectedOf s.m_hListView i :=
  ListView_IsSelected_FindItem s.m_hListView i

theorem selectedOf_nil (i : Int) : selectedOf [] i = false := rfl

theorem selectedOf_cons (a : LVITEM) (t : List LVITEM) (i : Int) :
    selectedOf (a :: t) i = if a.lParam = i then a.selected else selectedOf t i := by
  unfold selectedOf
  rw [List.find?_cons]
  by_cases h : a.lParam = i
  · have hb : (a.lParam == i) = true := by simpa using h
    rw [hb, if_pos h]
  · have hb : (a.lParam == i) = false := by simpa using h
    rw [hb, if_neg h]

theorem selectedOf_eraseIdx (lv : List LVITEM) (k : Nat) (hk : k < lv.length) (j : Int)
    (hne : lv[k].lParam ≠ j) : selectedOf (lv.eraseIdx k) j = selectedOf lv j := by
  induction lv generalizing k with
  | nil => simp at hk
  | cons a t ih =>
    cases k with
    | zero =>
      simp only [List.getElem_cons_zero] at hne
      rw [List.eraseIdx_cons_zero, selectedOf_cons, if_neg hne]
    | succ m =>
      simp only [List.getElem_cons_succ] at hne
      rw [List.eraseIdx_cons_succ, selectedOf_cons, selectedOf_cons,
        ih m (by simpa using hk) hne]

theorem selectedOf_of_rowKey (lv lv2 : List LVITEM) (i : Int)
    (h : lv.map rowKey = lv2.map rowKey) : selectedOf lv i = selectedOf lv2 i := by
  induction lv generalizing lv2 with
  | nil =>
    cases lv2 with
    | nil => rfl
    | cons b t2 => simp at h
  | cons a t ih =>
    cases lv2 with
    | nil => simp at h
    | cons b t2 =>
      simp only [List.map_cons, List.cons.injEq] at h
      have hk : a.lParam = b.lParam ∧ a.selected = b.selected := by
        simpa [rowKey, Prod.ext_iff] using h.1
      rw [selectedOf_cons, selectedOf_cons, hk.1, hk.2, ih t2 h.2]

theorem selectedOf_mem (lv : List LVITEM) (i : Int) (h : selectedOf lv i = true) :
    ∃ r ∈ lv, r.lParam = i ∧ r.selected = true := by
  unfold selectedOf at h
  split at h
  · rename_i r hr
    exact ⟨r, List.mem_of_find?_eq_some hr, by simpa using List.find?_some hr, h⟩
  · exact absurd h (by simp)

theorem sum_map_range_update (f g : Nat → Nat) (n i : Nat) (hi : i < n)
    (h : ∀ k, k ≠ i → g k = f k) :
    ((List.range n).map g).sum + f i = ((List.range n).map f).sum + g i := by
  induction n with
  | zero => omega
  | succ m ih =>
    rw [List.sum_range_succ, List.sum_range_succ]
    by_cases him : i = m
    · subst him
      have hsame : (List.range i).map g = (List.range i).map f := by
        apply List.map_congr_left
        intro k hk
        exact h k (by have := List.mem_range.1 hk; omega)
      rw [hsame]
      omega
    · have := ih (by omega)
      have hm := h m (fun hmi => him hmi.symm)
      omega

theorem sum_map_range_same (f g : Nat → Nat) (n : Nat) (h : ∀ k, k < n → g k = f k) :
    ((List.range n).map g).sum = ((List.range n).map f).sum := by
  congr 1
  apply List.map_congr_left
  intro k hk
  exact h k (List.mem_range.1 hk)

theorem OnListViewItemDeleted_selection (s : CShellBrowser) (i : Int) :
    (OnListViewItemDeleted s (ListView_FindItem s.m_hListView i)).m_ulFileSelectionSize
      = if itemSelected s i = true then
          sub64 s.m_ulFileSelectionSize (ulFileSize (slotAt s.items i).m_pwfdFiles)
        else s.m_ulFileSelectionSize := by
  unfold OnListViewItemDeleted
  rw [ListView_GetItem_FindItem, itemSelected_eq]
  unfold selectedOf
  cases hfind : s.m_hListView.find? (fun r => r.lParam == i) with
  | none => simp
  | some r =>
    have hr : r.lParam = i := by simpa using List.find?_some hfind
    simp only
    by_cases hsel : r.selected = true
    · rw [if_pos hsel, if_pos hsel, hr]
    · rw [if_neg hsel, if_neg hsel]

theorem itemSelected_of_not_found (s : CShellBrowser) (i : Int)
    (h : ListView_FindItem s.m_hListView i = -1) : itemSelected s i = false := by
  unfold itemSelected
  rw [h]
  rfl

theorem RemoveItem_int_selection (s : CShellBrowser) (i : Int) (hi : i ≠ -1) :
    (RemoveItem_int s i).m_ulFileSelectionSize
      = if itemSelected s i = true then
          sub64 s.m_ulFileSelectionSize (ulFileSize (slotAt s.items i).m_pwfdFiles)
        else s.m_ulFileSelectionSize := by
  rw [(RemoveItem_int_fields s i hi).2.2.2.1]
  split
  · exact OnListViewItemDeleted_selection s i
  · rename_i h
    rw [itemSelected_of_not_found s i (by simpa using h)]
    simp

theorem RemoveItem_int_selectedOf (s : CShellBrowser) (i j : Int) (hi : i ≠ -1)
    (hji : j ≠ i) :
    selectedOf (RemoveItem_int s i).m_hListView j = selectedOf s.m_hListView j := by
  rw [(RemoveItem_int_fields s i hi).2.2.2.2.2.2]
  split
  · rename_i h
    unfold ListView_FindItem at h ⊢
    by_cases hlt : s.m_hListView.findIdx (fun r => r.lParam == i) < s.m_hListView.length
    · rw [if_pos hlt]
      unfold LVM_DELETEITEM
      rw [if_neg (by omega), Int.toNat_ofNat]
      apply selectedOf_eraseIdx _ _ hlt
      have := List.findIdx_getElem (w := hlt)
      have hk : s.m_hListView[s.m_hListView.findIdx (fun r => r.lParam == i)].lParam = i := by
        simpa using this
      rw [hk]
      exact fun h => hji h.symm
    · rw [if_neg hlt] at h
      simp at h
  · rfl

theorem RemoveItem_int_selectedSize (s : CShellBrowser) (i : Int) (k : Nat) (hi : i ≠ -1)
    (hk : (k : Int) ≠ i) : selectedSize (RemoveItem_int s i) k = selectedSize s k := by
  unfold selectedSize isLive
  rw [itemSelected_eq, itemSelected_eq, RemoveItem_int_selectedOf s i k hi hk,
    (RemoveItem_int_fields s i hi).1, slotAt_setSlot_ne _ _ hk]

theorem RemoveItem_int_selectionInv (s : CShellBrowser) (i : Int)
    (hinv : SelectionSizeInv s) (hlive : isLive s i = true) :
    SelectionSizeInv (RemoveItem_int s i) := by
  have hl : (slotAt s.items i).m_pItemMap = 1 := by simpa [isLive] using hlive
  obtain ⟨h0, hlt⟩ := slotAt_of_live hl
  have hi : i ≠ -1 := by omega
  have hin : ((i.toNat : Nat) : Int) = i := Int.toNat_of_nonneg h0
  have hf := RemoveItem_int_fields s i hi
  have hsum := sum_map_range_update (selectedSize s) (selectedSize (RemoveItem_int s i))
    s.items.length i.toNat hlt
    (fun k hk => RemoveItem_int_selectedSize s i k hi (by omega))
  have hnew : selectedSize (RemoveItem_int s i) i.toNat = 0 := by
    unfold selectedSize isLive
    rw [hin, hf.1, slotAt_setSlot_self _ h0 hlt]
    simp
  have hold : selectedSize s i.toNat
      = if itemSelected s i = true then ulFileSize (slotAt s.items i).m_pwfdFiles else 0 := by
    unfold selectedSize
    rw [hin, hlive]
    simp
  unfold SelectionSizeInv at hinv ⊢
  unfold selectedSizeSum at hinv ⊢
  rw [hf.1, length_setSlot, RemoveItem_int_selection s i hi, hinv]
  rw [hnew, hold] at hsum
  have h64 : (2:Nat) ^ 64 = 18446744073709551616 := by norm_num
  unfold sub64
  rw [h64]
  split
  · rename_i hsel
    rw [if_pos hsel] at hsum
    omega
  · rename_i hsel
    rw [if_neg hsel] at hsum
    omega

theorem RemoveItem_selectionInv (s : CShellBrowser) (pidl : Pidl)
    (hinv : SelectionSizeInv s) : SelectionSizeInv (RemoveItem s pidl) := by
  unfold RemoveItem
  split
  · rename_i h
    exact RemoveItem_int_selectionInv s _ hinv
      (LocateFileItemInternalIndex_live s pidl (by simpa using h)).1
  · exact hinv

theorem map_set_of_same_key {α β : Type} (key : α → β) (l : List α) (n : Nat) (x y : α)
    (hy : l[n]? = some y) (h : key x = key y) : (l.set n x).map key = l.map key := by
  induction l generalizing n with
  | nil => rfl
  | cons a t ih =>
    cases n with
    | zero =>
      simp only [List.getElem?_cons_zero, Option.some.injEq] at hy
      simp [hy, h]
    | succ m =>
      simp only [List.getElem?_cons_succ] at hy
      simp [ih m hy]

theorem ListView_SetItem_rowKey (lv : List LVITEM) (iItem : Int) (f : LVITEM → LVITEM)
    (hf : ∀ r, rowKey (f r) = rowKey r) :
    (ListView_SetItem lv iItem f).map rowKey = lv.map rowKey := by
  unfold ListView_SetItem
  split
  · rfl
  · split
    · rename_i r hr
      exact map_set_of_same_key rowKey lv _ (f r) r hr (hf r)
    · rfl

theorem ListView_SetItemState_rowKey (lv : List LVITEM) (iItem : Int) (f : LVITEM → LVITEM)
    (hf : ∀ r, rowKey (f r) = rowKey r) :
    (ListView_SetItemState lv iItem f).map rowKey = lv.map rowKey := by
  unfold ListView_SetItemState
  split
  · rw [List.map_map]
    apply List.map_congr_left
    intro r _
    exact hf r
  · exact ListView_SetItem_rowKey lv iItem f hf

theorem refreshColumns_rowKey (sh : Shell) (items : List ItemSlot) (iItem : Int)
    (columns : List Column_t) :
    ∀ (iColumnIndex : Nat) (lv : List LVITEM),
      (refreshColumns sh items iItem columns iColumnIndex lv).map rowKey = lv.map rowKey := by
  induction columns with
  | nil => intro _ _; rfl
  | cons c rest ih =>
    intro iColumnIndex lv
    unfold refreshColumns
    split
    · rw [ih]
      exact ListView_SetItem_rowKey lv iItem _ (fun _ => rfl)
    · exact ih _ _

theorem ModifyItem_overlay_rowKey (sh : Shell) (s : CShellBrowser) (FileName : String) :
    (ModifyItem_overlay sh s FileName).m_hListView.map rowKey = s.m_hListView.map rowKey := by
  unfold ModifyItem_overlay
  split
  · rfl
  · split
    · exact ListView_SetItem_rowKey _ _ _ (fun _ => rfl)
    · rfl

theorem ModifyItem_update_rowKey (sh : Shell) (s : CShellBrowser) (FileName : String)
    (iItem i : Int) :
    (ModifyItem_update sh s FileName iItem i).m_hListView.map rowKey
      = s.m_hListView.map rowKey := by
  unfold ModifyItem_update
  split
  · simp only
    split
    · split
      · rw [refreshColumns_rowKey]
        exact ListView_SetItemState_rowKey _ _ _ (fun _ => rfl)
      · exact ListView_SetItemState_rowKey _ _ _ (fun _ => rfl)
    · exact ListView_SetItemState_rowKey _ _ _ (fun _ => rfl)
  · rfl

theorem ModifyItem_rowKey (sh : Shell) (s : CShellBrowser) (FileName : String) :
    (ModifyItem sh s FileName).m_hListView.map rowKey = s.m_hListView.map rowKey := by
  unfold ModifyItem
  split
  · rw [ModifyItem_update_rowKey, ModifyItem_overlay_rowKey]
  · exact ModifyItem_overlay_rowKey sh s FileName

theorem ModifyItem_itemSelected (sh : Shell) (s : CShellBrowser) (FileName : String)
    (j : Int) : itemSelected (ModifyItem sh s FileName) j = itemSelected s j := by
  rw [itemSelected_eq, itemSelected_eq]
  exact selectedOf_of_rowKey _ _ j (ModifyItem_rowKey sh s FileName)

theorem ListView_IsSelected_of_rowKey (lv lv2 : List LVITEM) (iItem : Int)
    (h : lv.map rowKey = lv2.map rowKey) :
    ListView_IsSelected lv iItem = ListView_IsSelected lv2 iItem := by
  unfold ListView_IsSelected ListView_GetItem
  by_cases hneg : iItem < 0
  · rw [if_pos hneg, if_pos hneg]
  · rw [if_neg hneg, if_neg hneg]
    have hk : (lv.map rowKey)[iItem.toNat]? = (lv2.map rowKey)[iItem.toNat]? := by rw [h]
    rw [List.getElem?_map, List.getElem?_map] at hk
    cases h1 : lv[iItem.toNat]? with
    | none =>
      cases h2 : lv2[iItem.toNat]? with
      | none => rfl
      | some b => rw [h1, h2] at hk; simp at hk
    | some a =>
      cases h2 : lv2[iItem.toNat]? with
      | none => rw [h1, h2] at hk; simp at hk
      | some b =>
        rw [h1, h2] at hk
        have hab : a.lParam = b.lParam ∧ a.selected = b.selected := by
          simpa [rowKey, Prod.ext_iff] using hk
        exact hab.2

theorem AwaitingAdd_find_name (items : List ItemSlot) (FileName : String)
    (l : List AwaitingAdd_t) (h : AwaitingAdd_find items FileName l ≠ -1) :
    (slotAt items (AwaitingAdd_find items FileName l)).m_pwfdFiles.cFileName = FileName := by
  induction l with
  | nil => exact absurd rfl h
  | cons a t ih =>
    unfold AwaitingAdd_find at h ⊢
    split
    · rename_i hname
      simpa using hname
    · rename_i hname
      rw [if_neg hname] at h
      exact ih h

theorem ListView_GetItem_findIdx (lv : List LVITEM) (p : LVITEM → Bool) :
    ListView_GetItem lv (if lv.findIdx p < lv.length then (lv.findIdx p : Int) else -1)
      = lv.find? p := by
  unfold ListView_GetItem
  rw [← getElem?_findIdx]
  by_cases hlt : lv.findIdx p < lv.length
  · rw [if_pos hlt, if_neg (by omega), Int.toNat_ofNat]
  · rw [if_neg hlt, if_pos (by omega), List.getElem?_eq_none (by omega)]

theorem selectedOf_of_find (q : LVITEM → Bool)
    (hq : ∀ r r2 : LVITEM, r.lParam = r2.lParam → q r = q r2) (l : List LVITEM)
    (r : LVITEM) (h : l.find? q = some r) : selectedOf l r.lParam = r.selected := by
  induction l with
  | nil => simp at h
  | cons a t ih =>
    rw [List.find?_cons] at h
    rw [selectedOf_cons]
    cases hqa : q a with
    | true =>
      rw [hqa] at h
      have har : a = r := by simpa using h
      rw [har, if_pos rfl]
    | false =>
      rw [hqa] at h
      have hqr : q r = true := List.find?_some h
      have hne : ¬ a.lParam = r.lParam := by
        intro hal
        rw [hq a r hal, hqr] at hqa
        exact absurd hqa (by simp)
      rw [if_neg hne]
      exact ih h

theorem ModifyItem_selected_flag (s : CShellBrowser) (FileName : String)
    (hfound : ModifyItem_locate s FileName ≠ -1) :
    ListView_IsSelected s.m_hListView (LocateFileItemIndex s FileName)
      = itemSelected s (ModifyItem_locate s FileName) := by
  have hq : ∀ r r2 : LVITEM, r.lParam = r2.lParam →
      ((slotAt s.items r.lParam).m_pwfdFiles.cFileName == FileName)
        = ((slotAt s.items r2.lParam).m_pwfdFiles.cFileName == FileName) := by
    intro r r2 h
    rw [h]
  have hget : ListView_GetItem s.m_hListView (LocateFileItemIndex s FileName)
      = s.m_hListView.find?
          (fun r => (slotAt s.items r.lParam).m_pwfdFiles.cFileName == FileName) :=
    ListView_GetItem_findIdx s.m_hListView _
  rw [itemSelected_eq]
  by_cases hrow : LocateFileItemIndex s FileName = -1
  · have hloc : ModifyItem_locate s FileName
        = AwaitingAdd_find s.items FileName s.m_AwaitingAddList := by
      unfold ModifyItem_locate
      rw [hrow]
      simp
    rw [hloc] at hfound ⊢
    rw [hrow]
    have hname := AwaitingAdd_find_name s.items FileName s.m_AwaitingAddList hfound
    cases hsel : selectedOf s.m_hListView
        (AwaitingAdd_find s.items FileName s.m_AwaitingAddList) with
    | false => rfl
    | true =>
      exfalso
      obtain ⟨r, hr, hri, _⟩ := selectedOf_mem _ _ hsel
      have hlt := List.findIdx_lt_length_of_exists
        (p := fun r => (slotAt s.items r.lParam).m_pwfdFiles.cFileName == FileName)
        ⟨r, hr, by simp [hri, hname]⟩
      unfold LocateFileItemIndex at hrow
      rw [if_pos hlt] at hrow
      omega
  · have hloc : ModifyItem_locate s FileName
        = match ListView_GetItem s.m_hListView (LocateFileItemIndex s FileName) with
          | some lvItem => lvItem.lParam
          | none => -1 := by
      unfold ModifyItem_locate
      rw [if_neg (by simpa using hrow)]
    rw [hloc] at hfound ⊢
    unfold ListView_IsSelected
    rw [hget] at hfound ⊢
    cases hfind : s.m_hListView.find?
        (fun r => (slotAt s.items r.lParam).m_pwfdFiles.cFileName == FileName) with
    | none => rw [hfind] at hfound; exact absurd rfl hfound
    | some r => exact (selectedOf_of_find _ hq s.m_hListView r hfind).symm

theorem ModifyItem_selection (sh : Shell) (s : CShellBrowser) (FileName : String)
    (hfound : ModifyItem_locate s FileName ≠ -1) :
    (sh.FindFirstFile (PathAppend s.m_CurDir FileName) = none →
      (ModifyItem sh s FileName).m_ulFileSelectionSize
        = if itemSelected s (ModifyItem_locate s FileName) = true then
            sub64 s.m_ulFileSelectionSize
              (ulFileSize (slotAt s.items (ModifyItem_locate s FileName)).m_pwfdFiles)
          else s.m_ulFileSelectionSize) ∧
    (∀ wfd, sh.FindFirstFile (PathAppend s.m_CurDir FileName) = some wfd →
      (ModifyItem sh s FileName).m_ulFileSelectionSize
        = if itemSelected s (ModifyItem_locate s FileName) = true then
            add64 (sub64 s.m_ulFileSelectionSize
              (ulFileSize (slotAt s.items (ModifyItem_locate s FileName)).m_pwfdFiles))
              (ulFileSize wfd)
          else s.m_ulFileSelectionSize) := by
  have hov := ModifyItem_overlay_frame sh s FileName
  have hit := ModifyItem_overlay_items sh s FileName
  have hflag : ListView_IsSelected (ModifyItem_overlay sh s FileName).m_hListView
      (LocateFileItemIndex s FileName) = itemSelected s (ModifyItem_locate s FileName) := by
    rw [ListView_IsSelected_of_rowKey _ _ _ (ModifyItem_overlay_rowKey sh s FileName)]
    exact ModifyItem_selected_flag s FileName hfound
  constructor
  · intro hprobe
    unfold ModifyItem
    rw [if_pos (by simpa using hfound)]
    unfold ModifyItem_update
    rw [hov.2.2.2.1, hprobe]
    simp only [hit, hov.2.1, hflag]
  · intro wfd hprobe
    unfold ModifyItem
    rw [if_pos (by simpa using hfound)]
    unfold ModifyItem_update
    rw [hov.2.2.2.1, hprobe]
    simp only [hit, hov.2.1, hflag]
    split <;> simp_all

theorem ModifyItem_slot_ne (sh : Shell) (s : CShellBrowser) (FileName : String) (j : Int)
    (hj : j ≠ ModifyItem_locate s FileName) :
    slotAt (ModifyItem sh s FileName).items j = slotAt s.items j := by
  by_cases hfound : ModifyItem_locate s FileName = -1
  · rw [ModifyItem_of_not_located sh s FileName hfound, ModifyItem_overlay_items]
  · cases hprobe : sh.FindFirstFile (PathAppend s.m_CurDir FileName) with
    | none =>
      rw [(ModifyItem_of_probe_failure sh s FileName hfound hprobe).1,
        slotAt_setSlot_ne _ _ hj]
    | some wfd =>
      rw [(ModifyItem_of_probe_success sh s FileName wfd hfound hprobe).1,
        slotAt_setSlot_ne _ _ hj]

theorem ModifyItem_items_length (sh : Shell) (s : CShellBrowser) (FileName : String) :
    (ModifyItem sh s FileName).items.length = s.items.length := by
  by_cases hfound : ModifyItem_locate s FileName = -1
  · rw [ModifyItem_of_not_located sh s FileName hfound, ModifyItem_overlay_items]
  · cases hprobe : sh.FindFirstFile (PathAppend s.m_CurDir FileName) with
    | none =>
      rw [(ModifyItem_of_probe_failure sh s FileName hfound hprobe).1, length_setSlot]
    | some wfd =>
      rw [(ModifyItem_of_probe_success sh s FileName wfd hfound hprobe).1, length_setSlot]

theorem ModifyItem_selectedSize_ne (sh : Shell) (s : CShellBrowser) (FileName : String)
    (k : Nat) (hk : (k : Int) ≠ ModifyItem_locate s FileName) :
    selectedSize (ModifyItem sh s FileName) k = selectedSize s k := by
  unfold selectedSize
  rw [ModifyItem_isLive, ModifyItem_itemSelected, ModifyItem_slot_ne sh s FileName k hk]

theorem ModifyItem_selectedSize_unselected (sh : Shell) (s : CShellBrowser)
    (FileName : String) (k : Nat) (hsel : itemSelected s k = false) :
    selectedSize (ModifyItem sh s FileName) k = selectedSize s k := by
  unfold selectedSize
  rw [ModifyItem_itemSelected, hsel]
  simp

theorem itemSelected_live (s : CShellBrowser) (i : Int) (hrows : SelectedAreLive s)
    (hsel : itemSelected s i = true) : isLive s i = true := by
  rw [itemSelected_eq] at hsel
  obtain ⟨r, hr, hri, hrs⟩ := selectedOf_mem _ _ hsel
  rw [← hri]
  exact hrows r hr hrs

theorem ModifyItem_selectionInv (sh : Shell) (s : CShellBrowser) (FileName : String)
    (hinv : SelectionSizeInv s) (hrows : SelectedAreLive s) :
    SelectionSizeInv (ModifyItem sh s FileName) := by
  have h64 : (2:Nat) ^ 64 = 18446744073709551616 := by norm_num
  unfold SelectionSizeInv at hinv ⊢
  unfold selectedSizeSum at hinv ⊢
  rw [ModifyItem_items_length]
  by_cases hfound : ModifyItem_locate s FileName = -1
  · rw [sum_map_range_same (selectedSize s) (selectedSize (ModifyItem sh s FileName))
      s.items.length (fun k _ => ModifyItem_selectedSize_ne sh s FileName k (by omega)),
      ModifyItem_of_not_located sh s FileName hfound,
      (ModifyItem_overlay_frame sh s FileName).2.1]
    exact hinv
  · obtain ⟨hfail, hsucc⟩ := ModifyItem_selection sh s FileName hfound
    cases hsel : itemSelected s (ModifyItem_locate s FileName) with
    | false =>
      have hsame : ∀ k, k < s.items.length →
          selectedSize (ModifyItem sh s FileName) k = selectedSize s k := by
        intro k _
        by_cases hk : (k : Int) = ModifyItem_locate s FileName
        · exact ModifyItem_selectedSize_unselected sh s FileName k (by rw [hk]; exact hsel)
        · exact ModifyItem_selectedSize_ne sh s FileName k hk
      rw [sum_map_range_same _ _ _ hsame]
      rw [hsel] at hfail hsucc
      cases hprobe : sh.FindFirstFile (PathAppend s.m_CurDir FileName) with
      | none => rw [hfail hprobe]; simpa using hinv
      | some wfd => rw [hsucc wfd hprobe]; simpa using hinv
    | true =>
      have hlive := itemSelected_live s _ hrows hsel
      have hl : (slotAt s.items (ModifyItem_locate s FileName)).m_pItemMap = 1 := by
        simpa [isLive] using hlive
      obtain ⟨h0, hlt⟩ := slotAt_of_live hl
      have hin : (((ModifyItem_locate s FileName).toNat : Nat) : Int)
          = ModifyItem_locate s FileName := Int.toNat_of_nonneg h0
      have hsum := sum_map_range_update (selectedSize s)
        (selectedSize (ModifyItem sh s FileName)) s.items.length
        (ModifyItem_locate s FileName).toNat hlt
        (fun k hk => ModifyItem_selectedSize_ne sh s FileName k (by omega))
      have hold : selectedSize s (ModifyItem_locate s FileName).toNat
          = ulFileSize (slotAt s.items (ModifyItem_locate s FileName)).m_pwfdFiles := by
        unfold selectedSize
        rw [hin, hlive, hsel]
        simp
      have hnew : selectedSize (ModifyItem sh s FileName) (ModifyItem_locate s FileName).toNat
          = ulFileSize (slotAt (ModifyItem sh s FileName).items
              (ModifyItem_locate s FileName)).m_pwfdFiles := by
        unfold selectedSize
        rw [hin, ModifyItem_isLive, ModifyItem_itemSelected, hlive, hsel]
        simp
      rw [hold, hnew] at hsum
      rw [hsel] at hfail hsucc
      cases hprobe : sh.FindFirstFile (PathAppend s.m_CurDir FileName) with
      | none =>
        rw [(ModifyItem_of_probe_failure sh s FileName hfound hprobe).1,
          slotAt_setSlot_self _ h0 hlt] at hsum
        have hz : ulFileSize { (slotAt s.items (ModifyItem_locate s FileName)).m_pwfdFiles
            with nFileSizeLow := 0, nFileSizeHigh := 0 } = 0 := by
          simp [ulFileSize, QuadPart]
        simp only [hz] at hsum
        rw [hfail hprobe, if_pos rfl, hinv]
        unfold sub64
        rw [h64]
        omega
      | some wfd =>
        rw [(ModifyItem_of_probe_success sh s FileName wfd hfound hprobe).1,
          slotAt_setSlot_self _ h0 hlt] at hsum
        simp only at hsum
        rw [hsucc wfd hprobe, if_pos rfl, hinv]
        unfold sub64 add64
        rw [h64]
        omega

theorem sampleBrowser_selection_after_removal :
    sampleBrowser.m_ulFileSelectionSize = 5 ∧
    (RemoveItem sampleBrowser [1, 2, 10]).m_ulFileSelectionSize = 0 ∧
    selectedSizeSum (RemoveItem sampleBrowser [1, 2, 10]) = 0 ∧
    (RemoveItem sampleBrowser [1, 2, 11]).m_ulFileSelectionSize = 5 ∧
    selectedSizeSum (RemoveItem sampleBrowser [1, 2, 11]) = 5 ∧
    (ModifyItem (probingShell (sampleRecord "a.txt" 4096)) sampleBrowser
      "a.txt").m_ulFileSelectionSize = 4096 := by
  decide

end ShellBrowser
